import Mathlib

/-!
Shallow embedding of the LDPT transportation-planning core (src/code.js).

Conventions of the embedding:
* JS numbers are modelled as `ℚ` (all arithmetic in the planner is exact on
  the inputs we reason about); `Math.round` is `jsRound`, `Math.ceil` is `⌈·⌉`.
* Store identifiers are `ℕ` (the JS code uses non-empty string ids; we never
  use the id `0`, so JS falsiness checks on ids are vacuous).
* Time strings are represented by their parsed shape: the regexes in
  `parseTimeToMinutes` accept exactly the forms `HH:MM` and `H(AM|PM)`, which
  `TimeStr.hm`/`TimeStr.ampm` capture; any other string is `TimeStr.other`.
* `obj[k]` lookups that may be absent are `Option`; JS truthiness of a number
  is `≠ 0`.
* JS objects iterated with `for..in` are modelled with first-insertion key
  order (`dedupFirst`).
* `Array.prototype.sort` with the comparator `(a,b) => b.pallets - a.pallets`
  is modelled by a stable descending insertion sort.
-/

namespace LDPT

abbrev Store := Nat

inductive Category
  | Ambient
  | Chiller
  | Freezer
  | Produce
deriving DecidableEq, Repr

inductive Cluster
  | others
  | overspillTag
  | manualReview
  | tag (n : Nat)
deriving DecidableEq, Repr

inductive Reason
  | timeConstraint
  | noViableCarrier
deriving DecidableEq, Repr

/-- Parsed shape of a time string: `HH:MM`, `H(AM|PM)`, or anything else. -/
inductive TimeStr
  | hm (h m : Nat)
  | ampm (h : Nat) (pm : Bool)
  | other
deriving DecidableEq, Repr

/-- A delivery-window string that is non-empty and not `N/A`: either it splits
on `-` into exactly two parts, or it does not (`noDash`, treated as valid). -/
inductive WindowStr
  | parts (s e : TimeStr)
  | noDash
deriving DecidableEq, Repr

/-- An equipment-restriction string, abstracted to whether it contains the
substrings `"36"` and `"48"` (the only queries the code makes). -/
structure Equip where
  has36 : Bool
  has48 : Bool
deriving DecidableEq, Repr

structure Restriction where
  equipmentDay : Option Equip
  equipmentNight : Option Equip
  /-- `none` models an absent, empty or `N/A` delivery-window field. -/
  deliveryWindow : Option WindowStr
deriving DecidableEq, Repr

structure Edge where
  distance : ℚ
  duration : ℚ
deriving DecidableEq, Repr

abbrev DistanceMatrix := Store → Store → Option Edge

structure Duration where
  loading : ℚ
  unloading : ℚ
deriving DecidableEq, Repr

abbrev DurationTable := Store → Nat → Option Duration

structure Shipment where
  id : Nat
  store : Store
  category : Category
  pallets : ℚ
  productTypeId : Option Nat
  cluster : Cluster
  attempts : Nat
  insertionFailures : Nat
  failureReason : Option Reason
deriving DecidableEq, Repr

structure TimeSlot where
  time : TimeStr
  capacity : Nat
  used : Nat
deriving DecidableEq, Repr

structure Carrier where
  name : Nat
  costPerMile : ℚ
  costPerRoute : ℚ
  costNotToUse : ℚ
  pallets36 : ℚ
  pallets48 : ℚ
  pallets53 : ℚ
  timeSlots : List TimeSlot
deriving DecidableEq, Repr

structure Route where
  carrier : Carrier
  time : TimeStr
  stops : List Shipment
  totalPallets : ℚ
  cluster : Cluster
  seedAttempts : Nat := 0
  routeId : Nat := 0
deriving DecidableEq, Repr

structure Context where
  restrictions : Store → Option Restriction
  detailedDurations : DurationTable
  distanceMatrix : DistanceMatrix
  warehouse : Store
  OVERPLAN_FACTOR : ℚ
  MIN_PALLETS_PER_ROUTE : ℚ
  MAX_PLANNING_ATTEMPTS : Nat
  RELAX_MIN_ATTEMPTS : Nat
  RELAX_MIN_FACTOR : ℚ
  CLUSTER_FAILURE_THRESHOLD : Nat
  MAX_ROUTE_MILEAGE : ℚ
  MAX_STOPS_GENERAL : Nat
  MAX_DISTANCE_BETWEEN_STOPS : ℚ
  ABSOLUTE_MAX_DISTANCE_BETWEEN_STOPS : ℚ
  ALLOW_ALL_ALL : Bool
  SMALL_AMBIENT_THRESHOLD : ℚ

/-- `Math.round` of JS: round half up. -/
def jsRound (q : ℚ) : ℤ := (q + 1 / 2).floor

/-- Structural worker for `dedupFirst`: keep an element iff it has not been
seen yet. -/
def dedupFirstAux {α : Type} [DecidableEq α] (seen : List α) : List α → List α
  | [] => []
  | a :: as => if a ∈ seen then dedupFirstAux seen as else a :: dedupFirstAux (a :: seen) as

/-- `[...new Set(l)]`: deduplicate keeping first occurrences. -/
def dedupFirst {α : Type} [DecidableEq α] (l : List α) : List α := dedupFirstAux [] l

/-- `parseTimeToMinutes` (src/code.js:792). -/
def parseTimeToMinutes : TimeStr → Option Nat
  | .hm h m => some (h * 60 + m)
  | .ampm h pm =>
      let hours := if h = 12 then (if pm then 12 else 0) else (if pm then h + 12 else h)
      some (hours * 60)
  | .other => none

/-- `isTimeInWindow` (src/code.js:806); the `windowStr` here is already known
to be non-empty and not `N/A` (callers guard on that before calling). -/
def isTimeInWindow (routeTime : TimeStr) (w : WindowStr) : Bool :=
  match w with
  | .noDash => true
  | .parts ws we =>
    match parseTimeToMinutes routeTime, parseTimeToMinutes ws, parseTimeToMinutes we with
    | some rt, some st, some et =>
        if st ≤ et then decide (st ≤ rt ∧ rt ≤ et) else decide (rt ≥ st ∨ rt ≤ et)
    | _, _, _ => true

structure TempOptions where
  allowAllAll : Bool
  smallAmbientThreshold : ℚ
  /-- `options.details.perStoreCounts`: the key list and the per-store
  per-category pallet totals. -/
  perStore : Option (List Store × (Store → Category → ℚ))

/-- `isTempCompatible` (src/code.js:825). -/
def isTempCompatible (requiredCategories : List Category) (o : TempOptions) : Bool :=
  let smallAmbientThreshold := if o.smallAmbientThreshold = 0 then 6 else o.smallAmbientThreshold
  let hasAmbient := Category.Ambient ∈ requiredCategories
  let hasProduce := Category.Produce ∈ requiredCategories
  let hasChiller := Category.Chiller ∈ requiredCategories
  let hasFreezer := Category.Freezer ∈ requiredCategories
  if hasFreezer then
    if hasChiller then false
    else if hasAmbient ∨ hasProduce then false
    else true
  else if o.allowAllAll then
    match o.perStore with
    | none => true
    | some (keys, counts) =>
        keys.all (fun storeId =>
          let hasStoreChiller := counts storeId Category.Chiller > 0
          let ambientTotal := counts storeId Category.Ambient + counts storeId Category.Produce
          !(hasStoreChiller && decide (ambientTotal > smallAmbientThreshold)))
  else !(hasChiller && hasFreezer)

/-- Per-store per-category pallet totals (`perStoreCounts` built at
src/code.js:1195 and src/code.js:1738). -/
def palletsOfAt (stops : List Shipment) (st : Store) (c : Category) : ℚ :=
  (stops.filter (fun s => s.store = st ∧ s.category = c)).foldl (fun a s => a + s.pallets) 0

inductive TrailerSize
  | s36
  | s48
  | s53
deriving DecidableEq, Repr

def capacityFor (c : Carrier) : TrailerSize → ℚ
  | .s36 => c.pallets36
  | .s48 => c.pallets48
  | .s53 => c.pallets53

/-- `getRequiredTrailerSize` (src/code.js:1358). -/
def getRequiredTrailerSize (route : Route) (restrictions : Store → Option Restriction) :
    TrailerSize :=
  let uniqueStores := dedupFirst (route.stops.map (·.store))
  let routeTimeMins := (parseTimeToMinutes route.time).getD 0
  let isNight := routeTimeMins ≥ 1140 ∨ routeTimeMins < 360
  let equipOf : Store → Option Equip := fun st =>
    match restrictions st with
    | some res => if isNight then res.equipmentNight else res.equipmentDay
    | none => none
  let requires36 := uniqueStores.any (fun st => ((equipOf st).map (·.has36)).getD false)
  let requires48 := uniqueStores.any (fun st => ((equipOf st).map (·.has48)).getD false)
  if requires36 then .s36 else if requires48 then .s48 else .s53

structure LegDetails where
  legDistances : List ℚ
  hasMissingData : Bool
deriving DecidableEq, Repr

/-- The forward-or-reverse distance lookup of `getLegDistanceDetails`
(src/code.js:1399-1401): `forwardLeg || reverseLeg`. -/
def legLookup (dm : DistanceMatrix) (fr to_ : Store) : Option Edge :=
  match dm fr to_ with
  | some e => some e
  | none => dm to_ fr

/-- Walk the consecutive pairs of the unique-store list; abort (`none`) at the
first pair with no edge in either direction. -/
def legWalk (dm : DistanceMatrix) : Store → List Store → Option (List ℚ)
  | _, [] => some []
  | prev, st :: rest =>
    match legLookup dm prev st with
    | none => none
    | some e => (legWalk dm st rest).map (fun l => e.distance :: l)

/-- `getLegDistanceDetails` (src/code.js:1383): distances of the legs between
consecutive unique stores (no depot legs); fails closed on a missing pair. -/
def getLegDistanceDetails (stops : List Shipment) (dm : DistanceMatrix) : LegDetails :=
  if stops.isEmpty then ⟨[], false⟩
  else
    let uniqueStores := dedupFirst (stops.map (·.store))
    if uniqueStores.length < 2 then ⟨[], false⟩
    else
      match uniqueStores with
      | [] => ⟨[], false⟩
      | first :: rest =>
        match legWalk dm first rest with
        | none => ⟨[], true⟩
        | some ds => ⟨ds, false⟩

/-- `calculateDistancePenalty` (src/code.js:1414). -/
def calculateDistancePenalty (legDistances : List ℚ) (preferredThreshold : ℚ) : ℚ :=
  legDistances.foldl
    (fun penalty distance =>
      if distance ≤ preferredThreshold then penalty
      else penalty + (distance - preferredThreshold) * (distance - preferredThreshold))
    0

/-- `Math.max(...l)` guarded by `l.length > 0 ? ... : 0` (src/code.js:1228). -/
def maxList : List ℚ → ℚ
  | [] => 0
  | x :: xs => xs.foldl max x

/-- One scan of the nearest-neighbor loop body (src/code.js:1477-1486):
returns the minimal known distance, the first store attaining it, and the
list with that occurrence removed; `none` iff every distance is unknown. -/
def nnPickAux (dm : DistanceMatrix) (loc : Store) : List Store → Option (ℚ × Store × List Store)
  | [] => none
  | s :: rest =>
    let here := (dm loc s).map (·.distance)
    match here, nnPickAux dm loc rest with
    | none, none => none
    | none, some (d, c, rem) => some (d, c, s :: rem)
    | some ds, none => some (ds, s, rest)
    | some ds, some (d, c, rem) =>
        if d < ds then some (d, c, s :: rem) else some (ds, s, rest)

/-- The while-loop of `runNearestNeighbor` (src/code.js:1477), indexed by a
structural fuel; with `remaining.length ≤ n` the fuel never runs out, because
each pick removes exactly one element. -/
def nnLoop (dm : DistanceMatrix) : Nat → Store → List Store → List Store
  | 0, _, remaining => remaining
  | n + 1, loc, remaining =>
    match nnPickAux dm loc remaining with
    | none => remaining
    | some (_, c, rem) => c :: nnLoop dm n c rem

/-- `runNearestNeighbor` (src/code.js:1472); only ever called on store lists. -/
def runNearestNeighbor (items : List Store) (startLocation : Store) (dm : DistanceMatrix) :
    List Store :=
  if items.length < 2 then items else nnLoop dm items.length startLocation items

def storeHasCold (stops : List Shipment) (st : Store) : Bool :=
  (stops.filter (fun s => s.store = st)).any
    (fun s => s.category = Category.Chiller ∨ s.category = Category.Freezer)

/-- `advancedOptimizeStopOrder` (src/code.js:1443). -/
def advancedOptimizeStopOrder (stops : List Shipment) (warehouse : Store)
    (dm : DistanceMatrix) : List Shipment :=
  if stops.length ≤ 1 then stops
  else
    let keys := dedupFirst (stops.map (·.store))
    let ambientOnly := keys.filter (fun st => !storeHasCold stops st)
    let withCold := keys.filter (fun st => storeHasCold stops st)
    let orderedAmbient := runNearestNeighbor ambientOnly warehouse dm
    let lastLocation := (orderedAmbient.getLast?).getD warehouse
    let finalOrder := orderedAmbient ++ runNearestNeighbor withCold lastLocation dm
    (finalOrder.map (fun st => stops.filter (fun s => s.store = st))).flatten

/-- The ambient-first nearest-neighbor store order the sequencer builds
(src/code.js:1460-1463), as a standalone definition for reasoning. -/
def nnAmbientOf (stops : List Shipment) (wh : Store) (dm : DistanceMatrix) : List Store :=
  runNearestNeighbor
    ((dedupFirst (stops.map (·.store))).filter (fun st => !storeHasCold stops st)) wh dm

/-- The cold-chain store order, seeded from the last ambient stop
(src/code.js:1465-1467). -/
def nnColdOf (stops : List Shipment) (wh : Store) (dm : DistanceMatrix) : List Store :=
  runNearestNeighbor
    ((dedupFirst (stops.map (·.store))).filter (fun st => storeHasCold stops st))
    (((nnAmbientOf stops wh dm).getLast?).getD wh) dm

/-- The full store visiting order of the Stop Sequencer. -/
def seqOrderOf (stops : List Shipment) (wh : Store) (dm : DistanceMatrix) : List Store :=
  nnAmbientOf stops wh dm ++ nnColdOf stops wh dm


inductive HosStatus
  | ok
  | drivingViolation
  | onDutyViolation
deriving DecidableEq, Repr

def PALLETS_PER_FLS : ℚ := 26
def ON_DUTY_LIMIT : ℚ := 14 * 60
def DRIVING_LIMIT : ℚ := 11 * 60
def BREAK_THRESHOLD : ℚ := 8 * 60
def BREAK_DURATION : ℚ := 30

/-- The running accumulators of `calculateRouteMetricsWithHOS` before the
final rounding. -/
structure HosState where
  travelTime : ℚ
  totalDistance : ℚ
  stopTime : ℚ
  onDutyTime : ℚ
  breaksTaken : Nat
deriving DecidableEq, Repr

def ddLookup (dd : DurationTable) (s : Shipment) : Option Duration :=
  match s.productTypeId with
  | some p => dd s.store p
  | none => none

/-- Loading time accrued at the warehouse (src/code.js:1511-1516); the
`pDur && pDur.loading` truthiness check is `loading ≠ 0`. -/
def loadingTime (dd : DurationTable) (stops : List Shipment) : ℚ :=
  stops.foldl
    (fun acc s =>
      match ddLookup dd s with
      | some d => if d.loading ≠ 0 then acc + s.pallets / PALLETS_PER_FLS * d.loading else acc
      | none => acc)
    0

/-- Unloading time at one store, summed over all shipments destined there
(src/code.js:1536-1546); `pDur && pDur.unloading` falsy falls back to 15. -/
def unloadTimeAtStore (dd : DurationTable) (stops : List Shipment) (st : Store) : ℚ :=
  stops.foldl
    (fun acc s =>
      if s.store = st then
        acc +
          (match ddLookup dd s with
           | some d => if d.unloading ≠ 0 then s.pallets / PALLETS_PER_FLS * d.unloading else 15
           | none => 15)
      else acc)
    0

/-- Accrue one found leg, inserting the 30-minute break first when the leg
would carry on-duty time past the next fresh 8-hour boundary
(src/code.js:1525-1534 and 1554-1561). -/
def hosAccrueLeg (st : HosState) (e : Edge) : HosState :=
  let st :=
    if st.onDutyTime + e.duration > ((st.breaksTaken : ℚ) + 1) * BREAK_THRESHOLD then
      { st with onDutyTime := st.onDutyTime + BREAK_DURATION, breaksTaken := st.breaksTaken + 1 }
    else st
  { st with
    travelTime := st.travelTime + e.duration
    totalDistance := st.totalDistance + e.distance
    onDutyTime := st.onDutyTime + e.duration }

/-- One unique-store visit (the loop body at src/code.js:1523-1550): the leg
is looked up forward only and silently skipped when absent. -/
def hosVisit (dm : DistanceMatrix) (dd : DurationTable) (stops : List Shipment)
    (acc : HosState × Store) (st : Store) : HosState × Store :=
  let s :=
    match dm acc.2 st with
    | some e => hosAccrueLeg acc.1 e
    | none => acc.1
  let u := unloadTimeAtStore dd stops st
  ({ s with stopTime := s.stopTime + u, onDutyTime := s.onDutyTime + u }, st)

def hosRaw (s : HosState) : ℚ := s.onDutyTime - BREAK_DURATION * s.breaksTaken

/-- Pointwise order between duty-cycle accumulator states that the appended
run preserves. -/
def HosLe (s₁ s₂ : HosState) : Prop :=
  s₁.travelTime ≤ s₂.travelTime ∧ hosRaw s₁ ≤ hosRaw s₂ ∧ s₁.breaksTaken ≤ s₂.breaksTaken

/-- The unloading update of `hosVisit`. -/
def addUnload (s : HosState) (u : ℚ) : HosState :=
  { s with stopTime := s.stopTime + u, onDutyTime := s.onDutyTime + u }

/-- The raw (unrounded) accumulator run of `calculateRouteMetricsWithHOS`. -/
def hosRun (orderedStops : List Shipment) (warehouse : Store) (dm : DistanceMatrix)
    (dd : DurationTable) : HosState :=
  let ld := loadingTime dd orderedStops
  let init : HosState :=
    { travelTime := 0, totalDistance := 0, stopTime := ld, onDutyTime := ld, breaksTaken := 0 }
  let fin := (dedupFirst (orderedStops.map (·.store))).foldl (hosVisit dm dd orderedStops)
    (init, warehouse)
  match dm fin.2 warehouse with
  | some e => hosAccrueLeg fin.1 e
  | none => fin.1

/-- The sequential status assignment at src/code.js:1565-1566. -/
def hosStatusOf (st : HosState) : HosStatus :=
  let s := HosStatus.ok
  let s := if st.travelTime > DRIVING_LIMIT then HosStatus.drivingViolation else s
  if st.onDutyTime > ON_DUTY_LIMIT then HosStatus.onDutyViolation else s

structure Metrics where
  travelTime : ℤ
  stopTime : ℤ
  totalDuration : ℤ
  totalDistance : ℤ
  hosStatus : HosStatus
deriving DecidableEq, Repr

/-- `calculateRouteMetricsWithHOS` (src/code.js:1502). -/
def calculateRouteMetricsWithHOS (orderedStops : List Shipment) (warehouse : Store)
    (dm : DistanceMatrix) (dd : DurationTable) : Metrics :=
  let st := hosRun orderedStops warehouse dm dd
  { travelTime := jsRound st.travelTime
    stopTime := jsRound st.stopTime
    totalDuration := jsRound st.onDutyTime
    totalDistance := jsRound st.totalDistance
    hosStatus := hosStatusOf st }

/-- The delivery-window guard at src/code.js:1203: the store has a non-empty,
non-`N/A` window and the route's time falls outside it. -/
def windowRejects (ctx : Context) (shipment : Shipment) (routeTime : TimeStr) : Bool :=
  match ctx.restrictions shipment.store with
  | some r =>
    match r.deliveryWindow with
    | some w => !isTimeInWindow routeTime w
    | none => false
  | none => false

/-- The `options` object both `checkAndScoreInsertion` and `isRouteValid`
pass to `isTempCompatible` (src/code.js:1201 and 1743). -/
def tempOptionsOf (ctx : Context) (stops : List Shipment) : TempOptions :=
  { allowAllAll := ctx.ALLOW_ALL_ALL
    smallAmbientThreshold :=
      if ctx.SMALL_AMBIENT_THRESHOLD = 0 then 4 else ctx.SMALL_AMBIENT_THRESHOLD
    perStore := some (dedupFirst (stops.map (·.store)), palletsOfAt stops) }

/-- `MAX_DISTANCE_BETWEEN_STOPS || 50` (src/code.js:1219). -/
def preferredLegThresholdOf (ctx : Context) : ℚ :=
  if ctx.MAX_DISTANCE_BETWEEN_STOPS = 0 then 50 else ctx.MAX_DISTANCE_BETWEEN_STOPS

/-- `ABSOLUTE_MAX_DISTANCE_BETWEEN_STOPS || Math.max(75, preferred)`
(src/code.js:1220). -/
def hardLegLimitOf (ctx : Context) : ℚ :=
  if ctx.ABSOLUTE_MAX_DISTANCE_BETWEEN_STOPS = 0 then max 75 (preferredLegThresholdOf ctx)
  else ctx.ABSOLUTE_MAX_DISTANCE_BETWEEN_STOPS

/-- The stop sequence the Scorer proposes when inserting `shipment` into
`route` (src/code.js:1218). -/
def proposedSequence (shipment : Shipment) (route : Route) (ctx : Context) : List Shipment :=
  advancedOptimizeStopOrder (route.stops ++ [shipment]) ctx.warehouse ctx.distanceMatrix

/-- The route's current optimized stop sequence (src/code.js:1217). -/
def currentSequence (route : Route) (ctx : Context) : List Shipment :=
  advancedOptimizeStopOrder route.stops ctx.warehouse ctx.distanceMatrix

/-- `checkAndScoreInsertion` (src/code.js:1173): the single constraint gate
plus marginal-cost score; `none` is the rejection signal. -/
def checkAndScoreInsertion (shipment : Shipment) (route : Route) (ctx : Context) : Option ℚ :=
  let tempStops := route.stops ++ [shipment]
  if (dedupFirst (tempStops.map (·.store))).length > ctx.MAX_STOPS_GENERAL then none
  else if !isTempCompatible (tempStops.map (·.category)) (tempOptionsOf ctx tempStops) then
    none
  else if windowRejects ctx shipment route.time then none
  else
    let carrier := route.carrier
    let requiredSize := getRequiredTrailerSize { route with stops := tempStops } ctx.restrictions
    let capacity := capacityFor carrier requiredSize
    if capacity = 0 ∨ route.totalPallets + shipment.pallets > capacity * ctx.OVERPLAN_FACTOR then
      none
    else
      let currentOptimized := currentSequence route ctx
      let tempOptimized := proposedSequence shipment route ctx
      let currentLegDetails := getLegDistanceDetails currentOptimized ctx.distanceMatrix
      if currentLegDetails.hasMissingData then none
      else
        let proposedLegDetails := getLegDistanceDetails tempOptimized ctx.distanceMatrix
        if proposedLegDetails.hasMissingData then none
        else
          let proposedMaxLeg := maxList proposedLegDetails.legDistances
          if proposedMaxLeg > hardLegLimitOf ctx then none
          else
            let distancePenaltyDelta :=
              calculateDistancePenalty proposedLegDetails.legDistances
                  (preferredLegThresholdOf ctx) -
                calculateDistancePenalty currentLegDetails.legDistances
                  (preferredLegThresholdOf ctx)
            let tempMetrics := calculateRouteMetricsWithHOS tempOptimized ctx.warehouse
              ctx.distanceMatrix ctx.detailedDurations
            if (tempMetrics.totalDistance : ℚ) > ctx.MAX_ROUTE_MILEAGE ∨
                tempMetrics.hosStatus ≠ HosStatus.ok then none
            else
              let originalMetrics := calculateRouteMetricsWithHOS currentOptimized ctx.warehouse
                ctx.distanceMatrix ctx.detailedDurations
              let newCost := (tempMetrics.totalDistance : ℚ) * carrier.costPerMile +
                carrier.costPerRoute
              let oldCost := (originalMetrics.totalDistance : ℚ) * carrier.costPerMile +
                carrier.costPerRoute
              some (newCost - oldCost + distancePenaltyDelta)

/-- `Math.ceil` of JS on exact rationals. -/
def jsCeil (q : ℚ) : ℤ := -((-q).floor)

/-- Update the element at index `i` (identity when out of range), as JS
assignment to `arr[i]` inside a bounds-checked loop. -/
def listModify {α : Type} (i : Nat) (f : α → α) : List α → List α
  | [] => []
  | a :: as =>
    match i with
    | 0 => f a :: as
    | i + 1 => a :: listModify i f as

/-- Stable insertion step for the descending-pallets sort. -/
def insertDesc (s : Shipment) : List Shipment → List Shipment
  | [] => [s]
  | t :: ts => if s.pallets ≥ t.pallets then s :: t :: ts else t :: insertDesc s ts

/-- `arr.sort((a, b) => b.pallets - a.pallets)`: stable descending sort. -/
def sortByPalletsDesc (l : List Shipment) : List Shipment := l.foldr insertDesc []

/-- `calculateRouteScore` (src/code.js:1692), the Rebalancer's standalone
score. (With capacity 0 the JS quotient would be infinite; committed routes
always have positive capacity.) -/
def calculateRouteScore (route : Route) (ctx : Context) : ℚ :=
  let metrics := calculateRouteMetricsWithHOS route.stops ctx.warehouse ctx.distanceMatrix
    ctx.detailedDurations
  let trailerSize := getRequiredTrailerSize route ctx.restrictions
  let capacity := capacityFor route.carrier trailerSize
  let totalCost := (metrics.totalDistance : ℚ) * route.carrier.costPerMile +
    route.carrier.costPerRoute
  let utilization := route.totalPallets / capacity
  let utilizationPenalty := (1 - utilization) * (1 - utilization) * 5000
  let maxRouteMileage := if ctx.MAX_ROUTE_MILEAGE = 0 then 425 else ctx.MAX_ROUTE_MILEAGE
  let mileageTarget := maxRouteMileage * (85 / 100)
  let mileagePenalty :=
    if (metrics.totalDistance : ℚ) > mileageTarget then
      ((metrics.totalDistance : ℚ) - mileageTarget) / 10 *
        (((metrics.totalDistance : ℚ) - mileageTarget) / 10) * 100
    else 0
  let clusterPenalty :=
    if route.stops.length > 1 ∧ (dedupFirst (route.stops.map (·.cluster))).length > 1 then 800
    else 0
  totalCost + utilizationPenalty + mileagePenalty + clusterPenalty

/-- `isRouteValid` (src/code.js:1732). Note: no leg-distance check here. -/
def isRouteValid (route : Route) (ctx : Context) : Bool :=
  if (dedupFirst (route.stops.map (·.store))).length > ctx.MAX_STOPS_GENERAL then false
  else if !isTempCompatible (route.stops.map (·.category)) (tempOptionsOf ctx route.stops) then
    false
  else
    let capacity := capacityFor route.carrier (getRequiredTrailerSize route ctx.restrictions)
    if route.totalPallets > capacity * ctx.OVERPLAN_FACTOR then false
    else
      let metrics := calculateRouteMetricsWithHOS route.stops ctx.warehouse ctx.distanceMatrix
        ctx.detailedDurations
      if (metrics.totalDistance : ℚ) > ctx.MAX_ROUTE_MILEAGE ∨
          metrics.hosStatus ≠ HosStatus.ok then false
      else true

/-- The one-by-one insertion simulation of the consolidation pass
(src/code.js:1609-1625); `tempPallets` stays at the target's original total,
exactly as in the source. -/
def consolidateSim (ctx : Context) (target : Route) :
    List Shipment → List Shipment → Bool
  | _, [] => true
  | tempStops, stop :: rest =>
    let testRoute := { target with
      stops := tempStops
      totalPallets := target.totalPallets + stop.pallets }
    match checkAndScoreInsertion stop testRoute ctx with
    | none => false
    | some _ => consolidateSim ctx target (tempStops ++ [stop]) rest

/-- The `j` scan of the consolidation pass for source index `i`
(src/code.js:1599-1636); returns the updated route list on the first merge. -/
def consolidateScanJ (ctx : Context) (routes : List Route) (i : Nat) (src : Route) :
    Nat → Nat → Option (List Route)
  | _, 0 => none
  | j, n + 1 =>
    match routes.get? j with
    | none => none
    | some target =>
      if j = i then consolidateScanJ ctx routes i src (j + 1) n
      else if src.carrier.name ≠ target.carrier.name ∨ src.time ≠ target.time then
        consolidateScanJ ctx routes i src (j + 1) n
      else
        let merged := { target with
          stops := target.stops ++ src.stops
          totalPallets := target.totalPallets + src.totalPallets }
        if consolidateSim ctx target target.stops src.stops && isRouteValid merged ctx then
          some ((routes.set j merged).eraseIdx i)
      else consolidateScanJ ctx routes i src (j + 1) n

/-- The back-to-front consolidation pass (src/code.js:1596-1637); the first
argument is the current index plus one. -/
def consolidatePass (ctx : Context) : Nat → List Route → Bool → List Route × Bool
  | 0, routes, improved => (routes, improved)
  | i + 1, routes, improved =>
    match routes.get? i with
    | none => consolidatePass ctx i routes improved
    | some src =>
      if src.stops.isEmpty then consolidatePass ctx i routes improved
      else
        match consolidateScanJ ctx routes i src 0 routes.length with
        | some routes' => consolidatePass ctx i routes' true
        | none => consolidatePass ctx i routes improved

/-- One tentative swap of `route1.stops[si]` with `route2.stops[sj]`
(src/code.js:1649-1682): kept only when the summed standalone score strictly
improves and both routes validate; otherwise both stop lists and pallet
totals are written back. -/
def swapAttempt (ctx : Context) (r1 r2 : Route) (si sj : Nat) : Route × Route × Bool :=
  match r1.stops.get? si, r2.stops.get? sj with
  | some stop1, some stop2 =>
    let currentScore := calculateRouteScore r1 ctx + calculateRouteScore r2 ctx
    let r1s := { r1 with stops := r1.stops.set si stop2 }
    let r2s := { r2 with stops := r2.stops.set sj stop1 }
    let newRoute1Pallets := r1s.stops.foldl (fun a s => a + s.pallets) 0
    let newRoute2Pallets := r2s.stops.foldl (fun a s => a + s.pallets) 0
    let r1n := { r1s with totalPallets := newRoute1Pallets }
    let r2n := { r2s with totalPallets := newRoute2Pallets }
    let newScore := calculateRouteScore r1n ctx + calculateRouteScore r2n ctx
    if newScore < currentScore ∧ isRouteValid r1n ctx ∧ isRouteValid r2n ctx then
      (r1n, r2n, true)
    else
      ({ r1n with stops := r1n.stops.set si stop1, totalPallets := r1.totalPallets },
       { r2n with stops := r2n.stops.set sj stop2, totalPallets := r2.totalPallets },
       false)
  | _, _ => (r1, r2, false)

/-- All `(si, sj)` swap attempts for one pair of routes (src/code.js:1649). -/
def swapPair (ctx : Context) (r1 r2 : Route) : (Route × Route) × Bool :=
  (List.range r1.stops.length).foldl
    (fun acc si =>
      (List.range r2.stops.length).foldl
        (fun acc2 sj =>
          let (a, b) := acc2.1
          let (a', b', kept) := swapAttempt ctx a b si sj
          ((a', b'), acc2.2 || kept))
        acc)
    ((r1, r2), false)

/-- The `j` loop of the swap pass (src/code.js:1641-1685). -/
def swapPassJ (ctx : Context) : List Route → Nat → Nat → Nat → Bool → List Route × Bool
  | routes, _, _, 0, improved => (routes, improved)
  | routes, i, j, n + 1, improved =>
    match routes.get? i, routes.get? j with
    | some r1, some r2 =>
      if r1.carrier.name ≠ r2.carrier.name ∨ r1.time ≠ r2.time then
        swapPassJ ctx routes i (j + 1) n improved
      else
        let ((r1', r2'), kept) := swapPair ctx r1 r2
        swapPassJ ctx ((routes.set i r1').set j r2') i (j + 1) n (improved || kept)
    | _, _ => swapPassJ ctx routes i (j + 1) n improved

/-- The `i` loop of the swap pass (src/code.js:1640). -/
def swapPassI (ctx : Context) : List Route → Nat → Nat → Bool → List Route × Bool
  | routes, _, 0, improved => (routes, improved)
  | routes, i, n + 1, improved =>
    let (routes', improved') := swapPassJ ctx routes i (i + 1) (routes.length - (i + 1)) improved
    swapPassI ctx routes' (i + 1) n improved'

def swapPass (ctx : Context) (routes : List Route) : List Route × Bool :=
  swapPassI ctx routes 0 routes.length false

/-- One round of `rebalanceRoutes`: consolidation pass then swap pass. -/
def rebalanceRound (ctx : Context) (routes : List Route) : List Route × Bool :=
  let (r1, imp1) := consolidatePass ctx routes.length routes false
  let (r2, imp2) := swapPass ctx r1
  (r2, imp1 || imp2)

def rebalanceLoop (ctx : Context) : Nat → List Route → List Route
  | 0, routes => routes
  | n + 1, routes =>
    let (routes', improved) := rebalanceRound ctx routes
    if improved then rebalanceLoop ctx n routes' else routes'

/-- `rebalanceRoutes` (src/code.js:1583), `MAX_REBALANCE_ITERATIONS = 15`. -/
def rebalanceRoutes (ctx : Context) (routes : List Route) : List Route :=
  rebalanceLoop ctx 15 routes

/-- `findBestInitialCarrier` (src/code.js:1150); returns the winning cost and
the carrier/slot indices (the JS result aliases the mutable slot object). -/
def findBestInitialCarrier (shipment : Shipment) (carriers : List Carrier) (ctx : Context) :
    Option (ℚ × Nat × Nat × Route) :=
  carriers.enum.foldl
    (fun best ci =>
      let carrier := ci.2
      carrier.timeSlots.enum.foldl
        (fun best ti =>
          let timeSlot := ti.2
          if timeSlot.used ≥ timeSlot.capacity then best
          else
            let tempRoute : Route :=
              { carrier := carrier
                time := timeSlot.time
                stops := [shipment]
                totalPallets := shipment.pallets
                cluster := shipment.cluster }
            if (checkAndScoreInsertion shipment { tempRoute with stops := [] } ctx).isNone then
              best
            else
              let metrics := calculateRouteMetricsWithHOS [shipment] ctx.warehouse
                ctx.distanceMatrix ctx.detailedDurations
              let cost := (metrics.totalDistance : ℚ) * carrier.costPerMile + carrier.costPerRoute
              match best with
              | none => some (cost, ci.1, ti.1, tempRoute)
              | some (bc, rest) => if cost < bc then some (cost, ci.1, ti.1, tempRoute)
                  else some (bc, rest))
        best)
    none

/-- One candidate examination in the growth scan (src/code.js:1097-1116):
returns the possibly counter-bumped shipment and its score when scoreable. -/
def scanStep (ctx : Context) (route : Route) (s : Shipment) : Shipment × Option ℚ :=
  if s.failureReason.isSome then (s, none)
  else
    let differentCluster := route.cluster ≠ Cluster.others ∧ s.cluster ≠ route.cluster
    let canRelaxCluster := differentCluster ∧
      (s.insertionFailures ≥ ctx.CLUSTER_FAILURE_THRESHOLD ∨
        route.seedAttempts ≥ ctx.RELAX_MIN_ATTEMPTS)
    if differentCluster ∧ ¬canRelaxCluster then
      ({ s with insertionFailures := s.insertionFailures + 1 }, none)
    else
      match checkAndScoreInsertion s route ctx with
      | none => ({ s with insertionFailures := s.insertionFailures + 1 }, none)
      | some sc => (s, some sc)

/-- The descending growth scan: candidates at higher indices are examined
first, and a later (lower-index) candidate replaces the best only on a
strictly smaller score, as in the JS loop. -/
def growScanAux (ctx : Context) (route : Route) :
    List Shipment → Nat → List Shipment × Option (ℚ × Nat)
  | [], _ => ([], none)
  | s :: rest, i =>
    let (rest', best) := growScanAux ctx route rest (i + 1)
    let (s', sc) := scanStep ctx route s
    match sc, best with
    | some v, some (bv, bi) =>
      if v < bv then (s' :: rest', some (v, i)) else (s' :: rest', some (bv, bi))
    | some v, none => (s' :: rest', some (v, i))
    | none, _ => (s' :: rest', best)

/-- The inner `while (routeChanged)` growth loop (src/code.js:1092-1128),
fuelled by the pool size (each accepted candidate removes one shipment). -/
def growRoute (ctx : Context) : Nat → Route → List Shipment → Route × List Shipment
  | 0, route, unassigned => (route, unassigned)
  | n + 1, route, unassigned =>
    let (un', best) := growScanAux ctx route unassigned 0
    match best with
    | none => (route, un')
    | some (_, i) =>
      match un'.get? i with
      | none => (route, un')
      | some sh0 =>
        let sh := { sh0 with insertionFailures := 0 }
        let route' := { route with
          stops := route.stops ++ [sh]
          totalPallets := route.totalPallets + sh.pallets
          cluster := if route.cluster = Cluster.others ∧ sh.cluster ≠ Cluster.others
            then sh.cluster else route.cluster }
        growRoute ctx n route' (un'.eraseIdx i)

/-- The best-route scan of the pre-pass (src/code.js:1036-1043): ascending
route index, strict improvement keeps the first minimum. -/
def prePassBestRoute (ctx : Context) (s : Shipment) (routes : List Route) : Option Nat :=
  (routes.enum.foldl
    (fun best ri =>
      match checkAndScoreInsertion s ri.2 ctx with
      | none => best
      | some sc =>
        match best with
        | none => some (sc, ri.1)
        | some (bs, bi) => if sc < bs then some (sc, ri.1) else some (bs, bi))
    none).map (·.2)

/-- The try-existing-routes pre-pass (src/code.js:1027-1058): shipments are
examined from the last index down (the recursion handles the tail first), and
an accepted shipment is pushed onto its best route immediately. -/
def prePass (ctx : Context) : List Shipment → List Route → List Shipment × List Route
  | [], routes => ([], routes)
  | s :: rest, routes =>
    let (rest', routes') := prePass ctx rest routes
    if s.failureReason.isSome then (s :: rest', routes')
    else
      match prePassBestRoute ctx s routes' with
      | none => (s :: rest', routes')
      | some r =>
        (rest',
         listModify r
           (fun route => { route with
             stops := route.stops ++ [s]
             totalPallets := route.totalPallets + s.pallets })
           routes')

/-- State of the main `while (planningInProgress)` loop. -/
structure LoopState where
  unassigned : List Shipment
  routes : List Route
  carriers : List Carrier
  iteration : Nat
  written : List Route
  done : Bool
deriving Repr

/-- One iteration of the main planning loop (src/code.js:1023-1142). -/
def planningIter (ctx : Context) (st : LoopState) : LoopState :=
  let sorted := sortByPalletsDesc st.unassigned
  let pre :=
    if st.routes.length > 0 then prePass ctx sorted st.routes else (sorted, st.routes)
  let unassigned0 := pre.1
  let routes0 := pre.2
  match unassigned0.findIdx?
      (fun s => decide (s.attempts < ctx.MAX_PLANNING_ATTEMPTS) && s.failureReason.isNone) with
  | none =>
    if routes0.length > 0 then
      let routes' := rebalanceRoutes ctx routes0
      { st with
        unassigned := unassigned0
        routes := routes'
        written := st.written ++ routes'.filter (fun r => !r.stops.isEmpty)
        done := true }
    else
      { st with unassigned := unassigned0, routes := routes0, done := true }
  | some seedIndex =>
    match unassigned0.get? seedIndex with
    | none => { st with unassigned := unassigned0, routes := routes0, done := true }
    | some seed0 =>
      let unassigned1 := unassigned0.eraseIdx seedIndex
      let seed := { seed0 with attempts := seed0.attempts + 1 }
      match findBestInitialCarrier seed st.carriers ctx with
      | none =>
        let reason :=
          match ctx.restrictions seed.store with
          | some r => if r.deliveryWindow.isSome then Reason.timeConstraint
              else Reason.noViableCarrier
          | none => Reason.noViableCarrier
        { st with
          unassigned := unassigned1 ++ [{ seed with failureReason := some reason }]
          routes := routes0 }
      | some (_, ci, ti, route0) =>
        let route1 := { route0 with seedAttempts := seed.attempts }
        let grown := growRoute ctx unassigned1.length route1 unassigned1
        let routeG := grown.1
        let unassigned2 := grown.2
        let relaxedMinimum : ℚ :=
          max 1 ((jsCeil (ctx.MIN_PALLETS_PER_ROUTE *
            (if routeG.seedAttempts ≥ ctx.RELAX_MIN_ATTEMPTS then ctx.RELAX_MIN_FACTOR
             else 1)) : ℤ) : ℚ)
        if routeG.totalPallets < relaxedMinimum then
          let returned := routeG.stops.map
            (fun s0 => { s0 with insertionFailures := s0.insertionFailures + 1 })
          { st with unassigned := unassigned2 ++ returned, routes := routes0 }
        else
          let carriers' := listModify ci
            (fun c => { c with
              timeSlots := listModify ti (fun t => { t with used := t.used + 1 }) c.timeSlots })
            st.carriers
          let routeC := { routeG with routeId := st.iteration }
          { st with
            unassigned := unassigned2
            routes := routes0 ++ [routeC]
            carriers := carriers'
            iteration := st.iteration + 1 }

def planningLoop (ctx : Context) : Nat → LoopState → LoopState
  | 0, st => st
  | n + 1, st => if st.done then st else planningLoop ctx n (planningIter ctx st)

/-- `Math.max(15, Math.ceil(MIN_PALLETS_PER_ROUTE * RELAX_MIN_FACTOR))`
(src/code.js:1767). -/
def pfRelaxedMinimum (ctx : Context) : ℚ :=
  max 15 ((jsCeil (ctx.MIN_PALLETS_PER_ROUTE * ctx.RELAX_MIN_FACTOR) : ℤ) : ℚ)

structure PfState where
  unassigned : List Shipment
  potential : List Shipment
  total : ℚ
deriving Repr

/-- The accumulation `while` of `utilizePullForwardRequests`
(src/code.js:1782-1800); note the candidate shipment is already inside the
`tempRoute` it is scored against. -/
def pfAccumulate (ctx : Context) (carrier : Carrier) (time : TimeStr) :
    Nat → Nat → PfState → PfState
  | 0, _, st => st
  | fuel + 1, j, st =>
    if j < st.unassigned.length ∧ st.total < ctx.MIN_PALLETS_PER_ROUTE then
      match st.unassigned.get? j with
      | none => st
      | some shipment =>
        let tempRoute : Route :=
          { carrier := carrier
            time := time
            stops := st.potential ++ [shipment]
            totalPallets := st.total + shipment.pallets
            cluster := Cluster.others }
        match checkAndScoreInsertion shipment tempRoute ctx with
        | some _ =>
          let shipment' := { shipment with insertionFailures := 0 }
          pfAccumulate ctx carrier time fuel j
            { unassigned := st.unassigned.eraseIdx j
              potential := st.potential ++ [shipment']
              total := st.total + shipment.pallets }
        | none =>
          let bumped := listModify j
            (fun s => { s with insertionFailures := s.insertionFailures + 1 })
            st.unassigned
          pfAccumulate ctx carrier time fuel (j + 1) { st with unassigned := bumped }
    else st

/-- The per-spare-unit loop of `utilizePullForwardRequests`
(src/code.js:1775-1818); the `Nat` in the state counts slot-usage bumps. -/
def pfRunUnits (ctx : Context) (carrier : Carrier) (time : TimeStr) :
    Nat → List Shipment × Nat × List Route → List Shipment × Nat × List Route
  | 0, st => st
  | k + 1, (unassigned, usedInc, created) =>
    let res := pfAccumulate ctx carrier time unassigned.length 0
      ⟨unassigned, [], 0⟩
    if res.total ≥ pfRelaxedMinimum ctx then
      let route : Route :=
        { carrier := carrier
          time := time
          stops := res.potential
          totalPallets := res.total
          cluster := ((res.potential.head?).map (·.cluster)).getD Cluster.others
          routeId := created.length + 1 }
      pfRunUnits ctx carrier time k (res.unassigned, usedInc + 1, created ++ [route])
    else
      pfRunUnits ctx carrier time k (res.unassigned ++ res.potential, usedInc, created)

def pfSlots (ctx : Context) (carrier : Carrier) :
    List TimeSlot → List Shipment → List Route →
      List TimeSlot × List Shipment × List Route
  | [], unassigned, created => ([], unassigned, created)
  | slot :: rest, unassigned, created =>
    if slot.used < slot.capacity then
      let (un', inc, created') := pfRunUnits ctx carrier slot.time
        (slot.capacity - slot.used) (unassigned, 0, created)
      let (rest', un'', created'') := pfSlots ctx carrier rest un' created'
      ({ slot with used := slot.used + inc } :: rest', un'', created'')
    else
      let (rest', un', created') := pfSlots ctx carrier rest unassigned created
      (slot :: rest', un', created')

def pfCarriers (ctx : Context) :
    List Carrier → List Shipment → List Route →
      List Carrier × List Shipment × List Route
  | [], unassigned, created => ([], unassigned, created)
  | carrier :: rest, unassigned, created =>
    let (slots', un', created') := pfSlots ctx carrier carrier.timeSlots unassigned created
    let (rest', un'', created'') := pfCarriers ctx rest un' created'
    ({ carrier with timeSlots := slots' } :: rest', un'', created'')

/-- `utilizePullForwardRequests` (src/code.js:1762): the created routes are
appended to `existingRoutes` and the leftover pool is returned. -/
def utilizePullForwardRequests (ctx : Context) (carriers : List Carrier)
    (remainingShipments : List Shipment) (existingRoutes : List Route) :
    List Carrier × List Shipment × List Route :=
  let (carriers', unassigned', created) := pfCarriers ctx carriers remainingShipments []
  (carriers', unassigned', existingRoutes ++ created)

structure PlanResult where
  written : List Route
  remaining : List Shipment
  carriers : List Carrier
  routes : List Route
deriving Repr

/-- `runPlanningLoop` (src/code.js:1009). `written` holds the routes passed
to `writeRouteToSheet` inside the loop (the pull-forward routes created
afterwards are appended to the in-memory `routes` array only). -/
def runPlanningLoop (shipmentsToPlan : List Shipment) (availableCarriers : List Carrier)
    (ctx : Context) (fuel : Nat) : PlanResult :=
  let st := planningLoop ctx fuel
    { unassigned := shipmentsToPlan
      routes := []
      carriers := availableCarriers
      iteration := 1
      written := []
      done := false }
  let (carriers', unassigned', routesAll) :=
    utilizePullForwardRequests ctx st.carriers st.unassigned st.routes
  { written := st.written, remaining := unassigned', carriers := carriers',
    routes := routesAll }

def overspillCarrier : Carrier :=
  { name := 999001
    costPerMile := 0
    costPerRoute := 0
    costNotToUse := 0
    pallets36 := 18
    pallets48 := 22
    pallets53 := 26
    timeSlots := [] }

/-- First-fit attempt of one overspill shipment against the existing
overspill routes (src/code.js:1287-1295). -/
def overspillFit (ctx : Context) : List Route → Shipment → Option (List Route)
  | [], _ => none
  | r :: rest, s =>
    if (checkAndScoreInsertion s r ctx).isSome then
      some ({ r with stops := r.stops ++ [s], totalPallets := r.totalPallets + s.pallets } :: rest)
    else (overspillFit ctx rest s).map (r :: ·)

structure PlanRemainOut where
  timeGroup : List Shipment
  otherGroup : List Shipment
  overspill : List Route
deriving Repr

/-- `planRemainingShipments` (src/code.js:1245): split terminal failures into
the two manual-review groups, first-fit pack the rest into overspill routes. -/
def planRemainingShipments (shipments : List Shipment) (ctx : Context) : PlanRemainOut :=
  let unplannableTime := shipments.filter (fun s => s.failureReason = some Reason.timeConstraint)
  let unplannableOther := shipments.filter
    (fun s => s.failureReason.isSome && s.failureReason ≠ some Reason.timeConstraint)
  let overspillShipments := shipments.filter (fun s => s.failureReason.isNone)
  let sorted := sortByPalletsDesc overspillShipments
  let overspillRoutes := sorted.foldl
    (fun routes s =>
      match overspillFit ctx routes s with
      | some routes' => routes'
      | none =>
        routes ++ [{ carrier := overspillCarrier
                     time := TimeStr.hm 23 0
                     stops := [s]
                     totalPallets := s.pallets
                     cluster := Cluster.overspillTag }])
    []
  { timeGroup := unplannableTime, otherGroup := unplannableOther, overspill := overspillRoutes }

structure PlanOutput where
  written : List Route
  overspill : List Route
  timeGroup : List Shipment
  otherGroup : List Shipment
deriving Repr

/-- The core of `generatePlan` (src/code.js:879): the main planning loop
followed by `planRemainingShipments`. The output holds everything that
reaches the plan sheet: the routes written inside `runPlanningLoop`, the
overspill pseudo-routes, and the two manual-review groups. -/
def generatePlanCore (shipments : List Shipment) (carriers : List Carrier) (ctx : Context)
    (fuel : Nat) : PlanOutput :=
  let res := runPlanningLoop shipments carriers ctx fuel
  let rem := planRemainingShipments res.remaining ctx
  { written := res.written
    overspill := rem.overspill
    timeGroup := rem.timeGroup
    otherGroup := rem.otherGroup }

/-- All shipment ids appearing in the written plan output. -/
def outputIds (out : PlanOutput) : List Nat :=
  (out.written.map (fun r => r.stops.map (·.id))).flatten ++
    (out.overspill.map (fun r => r.stops.map (·.id))).flatten ++
    out.timeGroup.map (·.id) ++ out.otherGroup.map (·.id)

-- ===================================================================
-- Spec-side definitions (phrased from the specification's words, for
-- comparison against the code-derived definitions above)
-- ===================================================================

/-- Consecutive pairs of a list: the legs of a walk. -/
def consecutivePairs {α : Type} : List α → List (α × α)
  | a :: b :: rest => (a, b) :: consecutivePairs (b :: rest)
  | _ => []

/-- The distance of a forward-direction edge, zero when absent. -/
def presentDist (dm : DistanceMatrix) (a b : Store) : ℚ :=
  ((dm a b).map (·.distance)).getD 0

/-- The duration of a forward-direction edge, zero when absent. -/
def durOf (dm : DistanceMatrix) (a b : Store) : ℚ :=
  ((dm a b).map (·.duration)).getD 0

/-- Sum of the forward-direction distances along a walk, a missing edge
contributing zero. -/
def walkDistSum (dm : DistanceMatrix) : Store → List Store → ℚ
  | _, [] => 0
  | loc, s :: rest => presentDist dm loc s + walkDistSum dm s rest

/-- The spec's single canonical route distance (spec §9): the sum over all
legs `depot → stop₁ → … → stopₙ → depot` of the unique-store sequence, with a
leg absent from the matrix (forward direction) contributing zero. -/
def routeDistanceSpec (orderedStops : List Shipment) (warehouse : Store)
    (dm : DistanceMatrix) : ℚ :=
  let stores := dedupFirst (orderedStops.map (·.store))
  walkDistSum dm warehouse stores + presentDist dm (stores.getLastD warehouse) warehouse

/-- Modelled from the claim's glossary (`Leg: one directed travel segment
between two consecutive stops (or depot and a stop)`): all leg distances of a
route's final stop sequence, depot legs included. -/
def legsOfRouteWithDepot (r : Route) (ctx : Context) : List ℚ :=
  let seq := advancedOptimizeStopOrder r.stops ctx.warehouse ctx.distanceMatrix
  let stores := dedupFirst (seq.map (·.store))
  (consecutivePairs (ctx.warehouse :: stores ++ [ctx.warehouse])).filterMap
    (fun p => (ctx.distanceMatrix p.1 p.2).map (·.distance))

/-- Modelled from the claim C6 wording: marginal cost with the distance
penalty taken over all legs of each sequence — depot legs included, per the
glossary — and total distances the canonical leg sums. -/
def claimScoreOf (shipment : Shipment) (route : Route) (ctx : Context) : ℚ :=
  let newSeq := proposedSequence shipment route ctx
  let oldSeq := currentSequence route ctx
  let newLegs := legsOfRouteWithDepot { route with stops := newSeq } ctx
  let oldLegs := legsOfRouteWithDepot { route with stops := oldSeq } ctx
  let newD := routeDistanceSpec newSeq ctx.warehouse ctx.distanceMatrix
  let oldD := routeDistanceSpec oldSeq ctx.warehouse ctx.distanceMatrix
  (newD * route.carrier.costPerMile + route.carrier.costPerRoute)
    - (oldD * route.carrier.costPerMile + route.carrier.costPerRoute)
    + (calculateDistancePenalty newLegs (preferredLegThresholdOf ctx)
        - calculateDistancePenalty oldLegs (preferredLegThresholdOf ctx))

-- ===================================================================
-- Concrete fixtures used by the closed theorems
-- ===================================================================

/-- Warehouse `100`; stores `1`, `2` nearby. -/
def exDm : DistanceMatrix := fun a b =>
  if a = 100 ∧ b = 1 then some ⟨10, 10⟩
  else if a = 1 ∧ b = 100 then some ⟨10, 10⟩
  else if a = 100 ∧ b = 2 then some ⟨12, 12⟩
  else if a = 2 ∧ b = 100 then some ⟨12, 12⟩
  else if a = 1 ∧ b = 2 then some ⟨5, 5⟩
  else if a = 2 ∧ b = 1 then some ⟨5, 5⟩
  else none

/-- Baseline context: the `generatePlan` settings (src/code.js:55-64 and
936-949) except that the relaxed-minimum attempt threshold is raised above
the attempt cap, a caller-tunable choice that keeps the main loop's minimum
at 20 pallets throughout. -/
def exCtx : Context :=
  { restrictions := fun _ => none
    detailedDurations := fun _ _ => none
    distanceMatrix := exDm
    warehouse := 100
    OVERPLAN_FACTOR := 1
    MIN_PALLETS_PER_ROUTE := 20
    MAX_PLANNING_ATTEMPTS := 5
    RELAX_MIN_ATTEMPTS := 6
    RELAX_MIN_FACTOR := 4 / 5
    CLUSTER_FAILURE_THRESHOLD := 3
    MAX_ROUTE_MILEAGE := 425
    MAX_STOPS_GENERAL := 5
    MAX_DISTANCE_BETWEEN_STOPS := 60
    ABSOLUTE_MAX_DISTANCE_BETWEEN_STOPS := 75
    ALLOW_ALL_ALL := false
    SMALL_AMBIENT_THRESHOLD := 6 }

def exCarrier : Carrier :=
  { name := 1
    costPerMile := 1
    costPerRoute := 10
    costNotToUse := 0
    pallets36 := 18
    pallets48 := 22
    pallets53 := 26
    timeSlots := [⟨TimeStr.hm 8 0, 1, 0⟩] }

def exShipA : Shipment :=
  { id := 0, store := 1, category := .Ambient, pallets := 9, productTypeId := none
    cluster := .tag 1, attempts := 0, insertionFailures := 0, failureReason := none }

def exShipB : Shipment :=
  { id := 1, store := 2, category := .Ambient, pallets := 8, productTypeId := none
    cluster := .tag 1, attempts := 0, insertionFailures := 0, failureReason := none }

def exEmptyRoute : Route :=
  { carrier := exCarrier, time := TimeStr.hm 8 0, stops := [], totalPallets := 0
    cluster := .tag 1 }

/-- Store `1` is 100 miles from the depot in both directions. -/
def exDmFar : DistanceMatrix := fun a b =>
  if a = 100 ∧ b = 1 then some ⟨100, 90⟩
  else if a = 1 ∧ b = 100 then some ⟨100, 90⟩
  else none

def exCtxFar : Context :=
  { exCtx with distanceMatrix := exDmFar, RELAX_MIN_ATTEMPTS := 4, MIN_PALLETS_PER_ROUTE := 10 }

def exShipFar : Shipment :=
  { id := 0, store := 1, category := .Ambient, pallets := 13, productTypeId := none
    cluster := .tag 1, attempts := 0, insertionFailures := 0, failureReason := none }

/-- Mixed-zone context: the `ALLOW_ALL_ALL` flag on, threshold 6. -/
def exCtxMix : Context := { exCtx with ALLOW_ALL_ALL := true }

def exShipChiller : Shipment :=
  { id := 2, store := 1, category := .Chiller, pallets := 2, productTypeId := none
    cluster := .tag 1, attempts := 0, insertionFailures := 0, failureReason := none }

def exShipAmbient6 : Shipment :=
  { id := 3, store := 1, category := .Ambient, pallets := 6, productTypeId := none
    cluster := .tag 1, attempts := 0, insertionFailures := 0, failureReason := none }

def exRouteChiller : Route :=
  { carrier := exCarrier, time := TimeStr.hm 8 0, stops := [exShipChiller], totalPallets := 2
    cluster := .tag 1 }

/-- No distance data at all between the depot and store `1`. -/
def exDmNone : DistanceMatrix := fun _ _ => none

def exCtxNone : Context := { exCtx with distanceMatrix := exDmNone }

/-- Store `1` is 70 miles out: beyond the 60-mile preferred-leg threshold but
within every hard cap. -/
def exDm70 : DistanceMatrix := fun a b =>
  if a = 100 ∧ b = 1 then some ⟨70, 60⟩
  else if a = 1 ∧ b = 100 then some ⟨70, 60⟩
  else none

def exCtx70 : Context := { exCtx with distanceMatrix := exDm70 }

/-- A matrix violating the triangle inequality: the direct return from store
`1` takes 100 minutes, but the detour through store `2` takes 2. -/
def exDmTri : DistanceMatrix := fun a b =>
  if a = 100 ∧ b = 1 then some ⟨10, 50⟩
  else if a = 1 ∧ b = 100 then some ⟨10, 100⟩
  else if a = 1 ∧ b = 2 then some ⟨1, 1⟩
  else if a = 2 ∧ b = 100 then some ⟨1, 1⟩
  else if a = 100 ∧ b = 2 then some ⟨1, 1⟩
  else if a = 2 ∧ b = 1 then some ⟨1, 1⟩
  else none

/-- A uniform complete matrix (every edge 1 mile, 1 minute): satisfies the
triangle inequality. -/
def exDmOne : DistanceMatrix := fun _ _ => some ⟨1, 1⟩

/-- The depot-to-store edge exists only in the reverse direction. -/
def exDmRev : DistanceMatrix := fun a b =>
  if a = 1 ∧ b = 100 then some ⟨100, 60⟩ else none

def exDdEmpty : DurationTable := fun _ _ => none

def exShipTri : Shipment :=
  { id := 4, store := 2, category := .Ambient, pallets := 5, productTypeId := none
    cluster := .tag 1, attempts := 0, insertionFailures := 0, failureReason := none }

def exRouteA : Route :=
  { carrier := exCarrier, time := TimeStr.hm 8 0, stops := [exShipA], totalPallets := 9
    cluster := .tag 1 }

def exRouteB : Route :=
  { carrier := exCarrier, time := TimeStr.hm 8 0, stops := [exShipB], totalPallets := 8
    cluster := .tag 1 }

-- ===================================================================
-- Helper lemmas
-- ===================================================================

theorem accept_facts (shipment : Shipment) (route : Route) (ctx : Context) (q : ℚ)
    (h : checkAndScoreInsertion shipment route ctx = some q) :
    let tempStops := route.stops ++ [shipment]
    let capacity := capacityFor route.carrier
      (getRequiredTrailerSize { route with stops := tempStops } ctx.restrictions)
    let currentLegDetails := getLegDistanceDetails (currentSequence route ctx) ctx.distanceMatrix
    let proposedLegDetails := getLegDistanceDetails (proposedSequence shipment route ctx)
      ctx.distanceMatrix
    let tempMetrics := calculateRouteMetricsWithHOS (proposedSequence shipment route ctx)
      ctx.warehouse ctx.distanceMatrix ctx.detailedDurations
    let originalMetrics := calculateRouteMetricsWithHOS (currentSequence route ctx)
      ctx.warehouse ctx.distanceMatrix ctx.detailedDurations
    (dedupFirst (tempStops.map (·.store))).length ≤ ctx.MAX_STOPS_GENERAL ∧
    isTempCompatible (tempStops.map (·.category)) (tempOptionsOf ctx tempStops) = true ∧
    windowRejects ctx shipment route.time = false ∧
    capacity ≠ 0 ∧
    route.totalPallets + shipment.pallets ≤ capacity * ctx.OVERPLAN_FACTOR ∧
    currentLegDetails.hasMissingData = false ∧
    proposedLegDetails.hasMissingData = false ∧
    maxList proposedLegDetails.legDistances ≤ hardLegLimitOf ctx ∧
    (tempMetrics.totalDistance : ℚ) ≤ ctx.MAX_ROUTE_MILEAGE ∧
    tempMetrics.hosStatus = HosStatus.ok ∧
    q = ((tempMetrics.totalDistance : ℚ) * route.carrier.costPerMile + route.carrier.costPerRoute)
      - ((originalMetrics.totalDistance : ℚ) * route.carrier.costPerMile +
          route.carrier.costPerRoute)
      + (calculateDistancePenalty proposedLegDetails.legDistances (preferredLegThresholdOf ctx)
          - calculateDistancePenalty currentLegDetails.legDistances
              (preferredLegThresholdOf ctx)) := by
  dsimp only
  unfold checkAndScoreInsertion at h
  dsimp only at h
  split at h
  · exact absurd h (by simp)
  split at h
  · exact absurd h (by simp)
  split at h
  · exact absurd h (by simp)
  split at h
  · exact absurd h (by simp)
  split at h
  · exact absurd h (by simp)
  split at h
  · exact absurd h (by simp)
  split at h
  · exact absurd h (by simp)
  split at h
  · exact absurd h (by simp)
  simp only [Option.some.injEq] at h
  rename_i h1 h2 h3 h4 h5 h6 h7 h8
  refine ⟨by omega, by simpa using h2, by simpa using h3, ?_, ?_, by simpa using h5,
    by simpa using h6, by linarith [not_lt.mp h7], ?_, ?_, h.symm⟩
  · intro hc
    exact h4 (Or.inl hc)
  · by_contra hgt
    exact h4 (Or.inr (not_le.mp hgt))
  · by_contra hgt
    exact h8 (Or.inl (not_le.mp hgt))
  · by_contra hne
    exact h8 (Or.inr hne)

theorem init_le_foldl_max : ∀ (l : List ℚ) (x : ℚ), x ≤ l.foldl max x := by
  intro l
  induction l with
  | nil => intro x; exact le_refl x
  | cons z zs ih =>
    intro x
    calc x ≤ max x z := le_max_left x z
    _ ≤ (z :: zs).foldl max x := by simpa using ih (max x z)

theorem le_maxList (l : List ℚ) (d : ℚ) (hd : d ∈ l) : d ≤ maxList l := by
  match l with
  | [] => cases hd
  | x :: xs =>
    simp only [maxList]
    rcases List.mem_cons.mp hd with rfl | htail
    · exact init_le_foldl_max xs d
    · clear hd
      induction xs generalizing x with
      | nil => cases htail
      | cons z zs ih =>
        simp only [List.foldl_cons]
        rcases List.mem_cons.mp htail with rfl | hzs
        · calc d ≤ max x d := le_max_right x d
          _ ≤ zs.foldl max (max x d) := init_le_foldl_max zs (max x d)
        · exact ih (max x z) hzs

theorem isTempCompatible_true_freezer (cats : List Category) (o : TempOptions)
    (h : isTempCompatible cats o = true) (hf : Category.Freezer ∈ cats) :
    Category.Chiller ∉ cats ∧ Category.Ambient ∉ cats ∧ Category.Produce ∉ cats := by
  unfold isTempCompatible at h
  simp only [hf, if_pos] at h
  by_cases hc : Category.Chiller ∈ cats
  · rw [if_pos hc] at h
    exact absurd h (by simp)
  rw [if_neg hc] at h
  by_cases hap : Category.Ambient ∈ cats ∨ Category.Produce ∈ cats
  · rw [if_pos hap] at h
    exact absurd h (by simp)
  push_neg at hap
  exact ⟨hc, hap.1, hap.2⟩

theorem isTempCompatible_true_allowAll (cats : List Category) (o : TempOptions)
    (keys : List Store) (counts : Store → Category → ℚ)
    (h : isTempCompatible cats o = true) (hf : Category.Freezer ∉ cats)
    (hall : o.allowAllAll = true) (hps : o.perStore = some (keys, counts)) :
    ∀ st ∈ keys, ¬(counts st Category.Chiller > 0 ∧
      counts st Category.Ambient + counts st Category.Produce >
        (if o.smallAmbientThreshold = 0 then 6 else o.smallAmbientThreshold)) := by
  intro st hst hcontra
  unfold isTempCompatible at h
  rw [if_neg (by simpa using hf), if_pos hall, hps] at h
  simp only [List.all_eq_true] at h
  have := h st hst
  simp only [Bool.not_eq_true', Bool.and_eq_false_iff] at this
  rcases this with hl | hr
  · rw [decide_eq_false_iff_not] at hl
    exact hl hcontra.1
  · rw [decide_eq_false_iff_not] at hr
    exact hr hcontra.2

theorem dedupFirstAux_congr {α : Type} [DecidableEq α] :
    ∀ (l s₁ s₂ : List α), (∀ x, x ∈ s₁ ↔ x ∈ s₂) →
      dedupFirstAux s₁ l = dedupFirstAux s₂ l := by
  intro l
  induction l with
  | nil => intro _ _ _; rfl
  | cons a as ih =>
    intro s₁ s₂ hmem
    simp only [dedupFirstAux]
    by_cases h1 : a ∈ s₁
    · rw [if_pos h1, if_pos ((hmem a).mp h1)]
      exact ih s₁ s₂ hmem
    · rw [if_neg h1, if_neg (fun h => h1 ((hmem a).mpr h))]
      refine congrArg (a :: ·) (ih _ _ ?_)
      intro x
      simp only [List.mem_cons]
      exact or_congr Iff.rfl (hmem x)

theorem dedupFirstAux_cons_seen {α : Type} [DecidableEq α] :
    ∀ (l : List α) (x : α) (seen : List α),
      dedupFirstAux (x :: seen) l = dedupFirstAux seen (l.filter (fun y => y ≠ x)) := by
  intro l
  induction l with
  | nil => intro _ _; rfl
  | cons a as ih =>
    intro x seen
    by_cases hax : a = x
    · subst hax
      have hfil : List.filter (fun y => decide (y ≠ a)) (a :: as)
          = List.filter (fun y => decide (y ≠ a)) as := by
        simp [List.filter_cons]
      rw [hfil]
      simp only [dedupFirstAux, List.mem_cons, true_or, if_true]
      exact ih a seen
    · have hfil : List.filter (fun y => decide (y ≠ x)) (a :: as)
          = a :: List.filter (fun y => decide (y ≠ x)) as := by
        simp [List.filter_cons, hax]
      rw [hfil]
      simp only [dedupFirstAux, List.mem_cons, hax, false_or]
      by_cases hseen : a ∈ seen
      · rw [if_pos hseen, if_pos hseen, ih]
      · rw [if_neg hseen, if_neg hseen]
        refine congrArg (a :: ·) ?_
        have hperm : ∀ y, y ∈ a :: x :: seen ↔ y ∈ x :: a :: seen := by
          intro y
          simp only [List.mem_cons]
          tauto
        rw [dedupFirstAux_congr as (a :: x :: seen) (x :: a :: seen) hperm, ih x (a :: seen)]

/-- The first-occurrence recurrence for `dedupFirst`. -/
theorem dedupFirst_cons {α : Type} [DecidableEq α] (a : α) (as : List α) :
    dedupFirst (a :: as) = a :: dedupFirst (as.filter (fun y => y ≠ a)) := by
  simp only [dedupFirst, dedupFirstAux, List.not_mem_nil, if_neg (fun h => h)]
  rw [dedupFirstAux_cons_seen]

theorem dedupFirst_nil {α : Type} [DecidableEq α] : dedupFirst ([] : List α) = [] := rfl

theorem nnPickAux_length (dm : DistanceMatrix) (loc : Store) :
    ∀ l : List Store, ∀ d c rem, nnPickAux dm loc l = some (d, c, rem) →
      rem.length + 1 = l.length := by
  intro l
  induction l with
  | nil => intro d c rem h; simp [nnPickAux] at h
  | cons s rest ih =>
    intro d c rem h
    simp only [nnPickAux] at h
    rcases hh : (dm loc s).map (·.distance) with _ | ds <;> rw [hh] at h <;>
      rcases ht : nnPickAux dm loc rest with _ | ⟨d', c', rem'⟩ <;> rw [ht] at h
    · exact absurd h (by simp)
    · have := ih d' c' rem' ht
      simp only [Option.some.injEq, Prod.mk.injEq] at h
      obtain ⟨_, _, rfl⟩ := h
      simp [← this]
    · simp only [Option.some.injEq, Prod.mk.injEq] at h
      obtain ⟨_, _, rfl⟩ := h
      rfl
    · have hlen := ih d' c' rem' ht
      have h' : (if d' < ds then some (d', c', s :: rem') else some (ds, s, rest))
          = some (d, c, rem) := h
      by_cases hlt : d' < ds
      · rw [if_pos hlt] at h'
        simp only [Option.some.injEq, Prod.mk.injEq] at h'
        obtain ⟨_, _, rfl⟩ := h'
        simp [← hlen]
      · rw [if_neg hlt] at h'
        simp only [Option.some.injEq, Prod.mk.injEq] at h'
        obtain ⟨_, _, rfl⟩ := h'
        rfl


-- ===================================================================
-- Claim theorems
-- ===================================================================

/-- C2 (counterexample): on a planning run with a single 13-pallet shipment
whose store lies 100 miles from the depot, a route is committed whose final
stop sequence has a depot leg of 100 miles, exceeding the
`ABSOLUTE_MAX_DISTANCE_BETWEEN_STOPS` cap of 75 — so the claim that every
committed route's maximum leg distance (legs including the depot segments)
is bounded by the hard cap is false. -/
theorem C2_counterexample :
    (generatePlanCore [exShipFar] [exCarrier] exCtxFar 50).written.map
        (fun r => legsOfRouteWithDepot r exCtxFar) = [[100, 100]] ∧
    exCtxFar.ABSOLUTE_MAX_DISTANCE_BETWEEN_STOPS = 75 ∧
    ((generatePlanCore [exShipFar] [exCarrier] exCtxFar 50).written.all
      (fun r => decide (maxList (legsOfRouteWithDepot r exCtxFar) ≤
        exCtxFar.ABSOLUTE_MAX_DISTANCE_BETWEEN_STOPS))) = false := by
  with_unfolding_all decide

/-- C2 (amended): whenever the Insertion Scorer accepts a shipment onto a
route, every leg between consecutive stops of the proposed optimized
sequence (depot legs are not examined by the leg cap) is at most the hard
leg limit, and the proposed sequence's simulated total mileage is at most
`MAX_ROUTE_MILEAGE` with a compliant duty status. -/
theorem C2_insertion_leg_and_mileage_caps (shipment : Shipment) (route : Route) (ctx : Context)
    (q : ℚ) (h : checkAndScoreInsertion shipment route ctx = some q) :
    (∀ d ∈ (getLegDistanceDetails (proposedSequence shipment route ctx)
        ctx.distanceMatrix).legDistances, d ≤ hardLegLimitOf ctx) ∧
    ((calculateRouteMetricsWithHOS (proposedSequence shipment route ctx) ctx.warehouse
        ctx.distanceMatrix ctx.detailedDurations).totalDistance : ℚ) ≤ ctx.MAX_ROUTE_MILEAGE ∧
    (calculateRouteMetricsWithHOS (proposedSequence shipment route ctx) ctx.warehouse
        ctx.distanceMatrix ctx.detailedDurations).hosStatus = HosStatus.ok := by
  obtain ⟨-, -, -, -, -, -, -, h8, h9, h10, -⟩ := accept_facts shipment route ctx q h
  exact ⟨fun d hd => le_trans (le_maxList _ d hd) h8, h9, h10⟩

theorem C2_insertion_leg_and_mileage_caps_witness :
    (∀ d ∈ (getLegDistanceDetails (proposedSequence exShipA exEmptyRoute exCtx)
        exCtx.distanceMatrix).legDistances, d ≤ hardLegLimitOf exCtx) ∧
    ((calculateRouteMetricsWithHOS (proposedSequence exShipA exEmptyRoute exCtx) exCtx.warehouse
        exCtx.distanceMatrix exCtx.detailedDurations).totalDistance : ℚ) ≤
      exCtx.MAX_ROUTE_MILEAGE ∧
    (calculateRouteMetricsWithHOS (proposedSequence exShipA exEmptyRoute exCtx) exCtx.warehouse
        exCtx.distanceMatrix exCtx.detailedDurations).hosStatus = HosStatus.ok :=
  C2_insertion_leg_and_mileage_caps exShipA exEmptyRoute exCtx 20 (by with_unfolding_all decide)

/-- C3 (counterexample): with the mixed-zone flag on and the small-quantity
threshold at 6, the Scorer accepts an ambient shipment that brings a store's
combined Ambient+Produce total to exactly 6 while 2 Chiller pallets are
present there — the combined total does not stay under the threshold, so the
claim's strict reading is false (the code rejects only above the
threshold). -/
theorem C3_counterexample :
    (checkAndScoreInsertion exShipAmbient6 exRouteChiller exCtxMix).isSome = true ∧
    exCtxMix.ALLOW_ALL_ALL = true ∧
    palletsOfAt (exRouteChiller.stops ++ [exShipAmbient6]) 1 Category.Chiller > 0 ∧
    ¬(palletsOfAt (exRouteChiller.stops ++ [exShipAmbient6]) 1 Category.Ambient +
        palletsOfAt (exRouteChiller.stops ++ [exShipAmbient6]) 1 Category.Produce <
      exCtxMix.SMALL_AMBIENT_THRESHOLD) := by
  with_unfolding_all decide

/-- C3 (amended): an accepted insertion never co-loads Freezer with Chiller,
Ambient or Produce, regardless of any other check; and when the mixed-zone
flag is set (and no Freezer is aboard), every store of the combined stop set
has either no Chiller pallets or an Ambient+Produce total that does not
exceed (at most equals) the configured small-quantity threshold. -/
theorem C3_temp_compatibility (shipment : Shipment) (route : Route) (ctx : Context) (q : ℚ)
    (h : checkAndScoreInsertion shipment route ctx = some q) :
    (Category.Freezer ∈ (route.stops ++ [shipment]).map (·.category) →
      Category.Chiller ∉ (route.stops ++ [shipment]).map (·.category) ∧
      Category.Ambient ∉ (route.stops ++ [shipment]).map (·.category) ∧
      Category.Produce ∉ (route.stops ++ [shipment]).map (·.category)) ∧
    (ctx.ALLOW_ALL_ALL = true →
      Category.Freezer ∉ (route.stops ++ [shipment]).map (·.category) →
      ∀ st ∈ dedupFirst ((route.stops ++ [shipment]).map (·.store)),
        palletsOfAt (route.stops ++ [shipment]) st Category.Chiller ≤ 0 ∨
        palletsOfAt (route.stops ++ [shipment]) st Category.Ambient +
          palletsOfAt (route.stops ++ [shipment]) st Category.Produce ≤
          (if ctx.SMALL_AMBIENT_THRESHOLD = 0 then 4 else ctx.SMALL_AMBIENT_THRESHOLD)) := by
  obtain ⟨-, h2, -⟩ := accept_facts shipment route ctx q h
  constructor
  · intro hf
    exact isTempCompatible_true_freezer _ _ h2 hf
  · intro hall hf st hst
    have hthr : (tempOptionsOf ctx (route.stops ++ [shipment])).smallAmbientThreshold =
        (if ctx.SMALL_AMBIENT_THRESHOLD = 0 then 4 else ctx.SMALL_AMBIENT_THRESHOLD) := rfl
    have hne : (if ctx.SMALL_AMBIENT_THRESHOLD = 0 then (4 : ℚ)
        else ctx.SMALL_AMBIENT_THRESHOLD) ≠ 0 → True := fun _ => trivial
    have hspec := isTempCompatible_true_allowAll _ _ _ _ h2 hf
      (by simpa [tempOptionsOf] using hall) rfl st hst
    rw [hthr] at hspec
    by_cases h0 : ctx.SMALL_AMBIENT_THRESHOLD = 0
    · rw [if_pos h0] at hspec ⊢
      norm_num at hspec
      by_cases hc : palletsOfAt (route.stops ++ [shipment]) st Category.Chiller ≤ 0
      · exact Or.inl hc
      · exact Or.inr (hspec (lt_of_not_le hc))
    · rw [if_neg h0] at hspec ⊢
      rw [if_neg h0] at hspec
      push_neg at hspec
      by_cases hc : palletsOfAt (route.stops ++ [shipment]) st Category.Chiller ≤ 0
      · exact Or.inl hc
      · exact Or.inr (hspec (lt_of_not_le hc))

theorem C3_temp_compatibility_witness :
    (Category.Freezer ∈ (exRouteChiller.stops ++ [exShipAmbient6]).map (·.category) →
      Category.Chiller ∉ (exRouteChiller.stops ++ [exShipAmbient6]).map (·.category) ∧
      Category.Ambient ∉ (exRouteChiller.stops ++ [exShipAmbient6]).map (·.category) ∧
      Category.Produce ∉ (exRouteChiller.stops ++ [exShipAmbient6]).map (·.category)) ∧
    (exCtxMix.ALLOW_ALL_ALL = true →
      Category.Freezer ∉ (exRouteChiller.stops ++ [exShipAmbient6]).map (·.category) →
      ∀ st ∈ dedupFirst ((exRouteChiller.stops ++ [exShipAmbient6]).map (·.store)),
        palletsOfAt (exRouteChiller.stops ++ [exShipAmbient6]) st Category.Chiller ≤ 0 ∨
        palletsOfAt (exRouteChiller.stops ++ [exShipAmbient6]) st Category.Ambient +
          palletsOfAt (exRouteChiller.stops ++ [exShipAmbient6]) st Category.Produce ≤
          (if exCtxMix.SMALL_AMBIENT_THRESHOLD = 0 then 4
           else exCtxMix.SMALL_AMBIENT_THRESHOLD)) :=
  C3_temp_compatibility exShipAmbient6 exRouteChiller exCtxMix 0 (by with_unfolding_all decide)

/-- C5 (counterexample): the Scorer accepts a shipment although the distance
matrix holds no entry, in either direction, for the depot leg the proposed
one-stop sequence needs; the duty-cycle metrics silently treat that leg as
zero, so a needed lookup was missing and the insertion was still accepted. -/
theorem C5_counterexample :
    checkAndScoreInsertion exShipA exEmptyRoute exCtxNone = some 0 ∧
    exCtxNone.distanceMatrix exCtxNone.warehouse exShipA.store = none ∧
    exCtxNone.distanceMatrix exShipA.store exCtxNone.warehouse = none ∧
    (proposedSequence exShipA exEmptyRoute exCtxNone).map (·.store) = [1] := by
  with_unfolding_all decide

/-- C5 (amended): whenever the Scorer accepts an insertion, neither the
current nor the proposed sequence's inter-stop leg walk hit a missing
distance entry (after the reverse-direction fallback); equivalently a
missing inter-stop lookup forces rejection. Depot legs are outside this
gate. -/
theorem C5_missing_leg_rejection (shipment : Shipment) (route : Route) (ctx : Context) (q : ℚ)
    (h : checkAndScoreInsertion shipment route ctx = some q) :
    (getLegDistanceDetails (currentSequence route ctx) ctx.distanceMatrix).hasMissingData
        = false ∧
    (getLegDistanceDetails (proposedSequence shipment route ctx)
        ctx.distanceMatrix).hasMissingData = false := by
  obtain ⟨-, -, -, -, -, h6, h7, -⟩ := accept_facts shipment route ctx q h
  exact ⟨h6, h7⟩

theorem C5_missing_leg_rejection_witness :
    (getLegDistanceDetails (currentSequence exEmptyRoute exCtx)
        exCtx.distanceMatrix).hasMissingData = false ∧
    (getLegDistanceDetails (proposedSequence exShipA exEmptyRoute exCtx)
        exCtx.distanceMatrix).hasMissingData = false :=
  C5_missing_leg_rejection exShipA exEmptyRoute exCtx 20 (by with_unfolding_all decide)

/-- C6 (counterexample): for a one-stop insertion whose depot legs are 70
miles (preferred-leg threshold 60), the Scorer returns 140 while the claim's
formula — with the leg penalty taken over all legs, depot legs included per
the glossary — yields 340: the code's penalty ranges only over inter-stop
legs. -/
theorem C6_counterexample :
    checkAndScoreInsertion exShipA exEmptyRoute exCtx70 = some 140 ∧
    claimScoreOf exShipA exEmptyRoute exCtx70 = 340 ∧
    (140 : ℚ) ≠ 340 := by
  with_unfolding_all decide

/-- C6 (amended): the returned score equals the marginal carrier cost
computed from the duty-cycle simulator's (rounded) total distances of the
proposed and current sequences, plus the delta of the squared-overage
penalty taken over the inter-stop legs only (depot legs excluded). -/
theorem C6_score_formula (shipment : Shipment) (route : Route) (ctx : Context) (q : ℚ)
    (h : checkAndScoreInsertion shipment route ctx = some q) :
    q = (((calculateRouteMetricsWithHOS (proposedSequence shipment route ctx) ctx.warehouse
            ctx.distanceMatrix ctx.detailedDurations).totalDistance : ℚ) *
          route.carrier.costPerMile + route.carrier.costPerRoute)
      - (((calculateRouteMetricsWithHOS (currentSequence route ctx) ctx.warehouse
            ctx.distanceMatrix ctx.detailedDurations).totalDistance : ℚ) *
          route.carrier.costPerMile + route.carrier.costPerRoute)
      + (calculateDistancePenalty
          (getLegDistanceDetails (proposedSequence shipment route ctx)
            ctx.distanceMatrix).legDistances (preferredLegThresholdOf ctx)
        - calculateDistancePenalty
            (getLegDistanceDetails (currentSequence route ctx)
              ctx.distanceMatrix).legDistances (preferredLegThresholdOf ctx)) := by
  obtain ⟨-, -, -, -, -, -, -, -, -, -, hq⟩ := accept_facts shipment route ctx q h
  exact hq

theorem C6_score_formula_witness :
    (7 : ℚ) = (((calculateRouteMetricsWithHOS (proposedSequence exShipB exRouteA exCtx)
            exCtx.warehouse exCtx.distanceMatrix exCtx.detailedDurations).totalDistance : ℚ) *
          exRouteA.carrier.costPerMile + exRouteA.carrier.costPerRoute)
      - (((calculateRouteMetricsWithHOS (currentSequence exRouteA exCtx) exCtx.warehouse
            exCtx.distanceMatrix exCtx.detailedDurations).totalDistance : ℚ) *
          exRouteA.carrier.costPerMile + exRouteA.carrier.costPerRoute)
      + (calculateDistancePenalty
          (getLegDistanceDetails (proposedSequence exShipB exRouteA exCtx)
            exCtx.distanceMatrix).legDistances (preferredLegThresholdOf exCtx)
        - calculateDistancePenalty
            (getLegDistanceDetails (currentSequence exRouteA exCtx)
              exCtx.distanceMatrix).legDistances (preferredLegThresholdOf exCtx)) :=
  C6_score_formula exShipB exRouteA exCtx 7 (by with_unfolding_all decide)


theorem set_get_self {α : Type} : ∀ (l : List α) (i : Nat) (a : α),
    l.get? i = some a → l.set i a = l := by
  intro l
  induction l with
  | nil => intro i a h; cases h
  | cons x xs ih =>
    intro i a h
    match i with
    | 0 =>
      simp only [List.get?] at h
      cases h
      rfl
    | j + 1 =>
      simp only [List.get?] at h
      simp only [List.set]
      rw [ih j a h]

/-- C9: one tentative swap in the Rebalancer's swap pass is kept only when
the summed standalone route score strictly improves and both modified routes
independently validate; on rejection both routes' stop lists and pallet
totals are restored exactly, leaving no observable change. -/
theorem C9_swap_atomic (ctx : Context) (r1 r2 : Route) (si sj : Nat)
    (h1 : si < r1.stops.length) (h2 : sj < r2.stops.length) :
    ((swapAttempt ctx r1 r2 si sj).2.2 = true →
      calculateRouteScore (swapAttempt ctx r1 r2 si sj).1 ctx +
          calculateRouteScore (swapAttempt ctx r1 r2 si sj).2.1 ctx <
        calculateRouteScore r1 ctx + calculateRouteScore r2 ctx ∧
      isRouteValid (swapAttempt ctx r1 r2 si sj).1 ctx = true ∧
      isRouteValid (swapAttempt ctx r1 r2 si sj).2.1 ctx = true) ∧
    ((swapAttempt ctx r1 r2 si sj).2.2 = false →
      (swapAttempt ctx r1 r2 si sj).1 = r1 ∧ (swapAttempt ctx r1 r2 si sj).2.1 = r2) := by
  have hget1 : r1.stops.get? si = some (r1.stops.get ⟨si, h1⟩) := List.get?_eq_get h1
  have hget2 : r2.stops.get? sj = some (r2.stops.get ⟨sj, h2⟩) := List.get?_eq_get h2
  unfold swapAttempt
  rw [hget1, hget2]
  dsimp only
  split
  · rename_i hcond
    constructor
    · intro _
      exact ⟨hcond.1, by rw [hcond.2.1], by rw [hcond.2.2]⟩
    · intro hfalse
      exact absurd hfalse (by simp)
  · constructor
    · intro htrue
      exact absurd htrue (by simp)
    · intro _
      have hrest1 : ((r1.stops.set si (r2.stops.get ⟨sj, h2⟩)).set si
          (r1.stops.get ⟨si, h1⟩)) = r1.stops := by
        rw [List.set_set]
        exact set_get_self r1.stops si _ hget1
      have hrest2 : ((r2.stops.set sj (r1.stops.get ⟨si, h1⟩)).set sj
          (r2.stops.get ⟨sj, h2⟩)) = r2.stops := by
        rw [List.set_set]
        exact set_get_self r2.stops sj _ hget2
      constructor
      · rw [hrest1]
      · rw [hrest2]

theorem C9_swap_atomic_witness :
    (swapAttempt exCtx exRouteA exRouteB 0 0).1 = exRouteA ∧
    (swapAttempt exCtx exRouteA exRouteB 0 0).2.1 = exRouteB :=
  (C9_swap_atomic exCtx exRouteA exRouteB 0 0 (by decide) (by decide)).2
    (by with_unfolding_all decide)

theorem hosAccrueLeg_travelTime (st : HosState) (e : Edge) :
    (hosAccrueLeg st e).travelTime = st.travelTime + e.duration := by
  unfold hosAccrueLeg
  split <;> rfl

theorem hosAccrueLeg_totalDistance (st : HosState) (e : Edge) :
    (hosAccrueLeg st e).totalDistance = st.totalDistance + e.distance := by
  unfold hosAccrueLeg
  split <;> rfl

theorem hosAccrueLeg_stopTime (st : HosState) (e : Edge) :
    (hosAccrueLeg st e).stopTime = st.stopTime := by
  unfold hosAccrueLeg
  split <;> rfl

theorem foldl_hosVisit_distance (dm : DistanceMatrix) (dd : DurationTable)
    (stops : List Shipment) :
    ∀ (l : List Store) (st : HosState) (loc : Store),
      ((l.foldl (hosVisit dm dd stops) (st, loc)).1.totalDistance
        = st.totalDistance + walkDistSum dm loc l) ∧
      (l.foldl (hosVisit dm dd stops) (st, loc)).2 = l.getLastD loc := by
  intro l
  induction l with
  | nil =>
    intro st loc
    simp [walkDistSum]
  | cons s rest ih =>
    intro st loc
    simp only [List.foldl_cons, walkDistSum, List.getLastD_cons]
    have hvisit : (hosVisit dm dd stops (st, loc) s).1.totalDistance
        = st.totalDistance + presentDist dm loc s ∧ (hosVisit dm dd stops (st, loc) s).2 = s := by
      unfold hosVisit presentDist
      cases hdm : dm loc s
      · simp [hdm]
      · simp [hdm, hosAccrueLeg_totalDistance]
    obtain ⟨hd, hsnd⟩ := hvisit
    obtain ⟨ihd, ihl⟩ := ih (hosVisit dm dd stops (st, loc) s).1 (hosVisit dm dd stops (st, loc) s).2
    constructor
    · have : (hosVisit dm dd stops (st, loc) s) =
          ((hosVisit dm dd stops (st, loc) s).1, (hosVisit dm dd stops (st, loc) s).2) := rfl
      rw [this, hsnd] at ihd ⊢
      rw [ihd, hd]
      ring
    · have : (hosVisit dm dd stops (st, loc) s) =
          ((hosVisit dm dd stops (st, loc) s).1, (hosVisit dm dd stops (st, loc) s).2) := rfl
      rw [this, hsnd] at ihl ⊢
      exact ihl

/-- C10 (implicit): the route-metrics computation looks up each leg in the
forward direction only and silently skips absent ones, so the reported total
distance is exactly the rounded sum of the present forward legs of the walk
depot → stores → depot (missing legs contributing zero, never an error); on
the concrete one-stop route whose depot edge exists only in the reverse
direction, the metrics count just the 100-mile return leg and report status
OK, undercounting the true round trip. -/
theorem C10_missing_legs_skipped :
    (∀ (stops : List Shipment) (wh : Store) (dm : DistanceMatrix) (dd : DurationTable),
      (calculateRouteMetricsWithHOS stops wh dm dd).totalDistance
        = jsRound (routeDistanceSpec stops wh dm)) ∧
    calculateRouteMetricsWithHOS [exShipA] 100 exDmRev exDdEmpty
      = { travelTime := 60, stopTime := 15, totalDuration := 75, totalDistance := 100,
          hosStatus := HosStatus.ok } := by
  constructor
  · intro stops wh dm dd
    unfold calculateRouteMetricsWithHOS routeDistanceSpec
    dsimp only
    congr 1
    unfold hosRun
    dsimp only
    obtain ⟨hd, hl⟩ := foldl_hosVisit_distance dm dd stops
      (dedupFirst (stops.map (·.store)))
      { travelTime := 0, totalDistance := 0, stopTime := loadingTime dd stops,
        onDutyTime := loadingTime dd stops, breaksTaken := 0 } wh
    rw [hl]
    cases hret : dm ((dedupFirst (stops.map (·.store))).getLastD wh) wh with
    | none =>
      simp only [hd, presentDist, hret, Option.map_none', Option.getD_none]
      ring
    | some e =>
      rw [hosAccrueLeg_totalDistance]
      simp only [hd, presentDist, hret, Option.map_some', Option.getD_some]
      ring
  · with_unfolding_all decide

/-- C1 (code bug): a planning run in which the pull-forward pass creates a
route silently loses its shipments. With the caller-tunable relaxed-minimum
attempt threshold above the attempt cap, two shipments of 9 and 8 pallets
exhaust their attempts (17 < 20 pallets per route), the pull-forward pass
then packs both into a new route (17 ≥ 16) — but `runPlanningLoop` wrote the
committed routes to the sheet before pull-forward ran, so the written plan,
the overspill routes and the manual-review groups are all empty: the input's
two shipments appear nowhere in the output, violating conservation. -/
theorem C1_pull_forward_shipments_dropped :
    outputIds (generatePlanCore [exShipA, exShipB] [exCarrier] exCtx 50) = [] ∧
    (runPlanningLoop [exShipA, exShipB] [exCarrier] exCtx 50).routes.map
      (fun r => r.stops.map (·.id)) = [[0, 1]] ∧
    (runPlanningLoop [exShipA, exShipB] [exCarrier] exCtx 50).remaining = [] ∧
    [exShipA.id, exShipB.id] = [0, 1] := by
  with_unfolding_all decide


theorem hosAccrueLeg_duration_invariant (st : HosState) (e : Edge)
    (h : st.onDutyTime = st.stopTime + st.travelTime + BREAK_DURATION * st.breaksTaken) :
    (hosAccrueLeg st e).onDutyTime = (hosAccrueLeg st e).stopTime +
      (hosAccrueLeg st e).travelTime + BREAK_DURATION * (hosAccrueLeg st e).breaksTaken := by
  unfold hosAccrueLeg
  split
  · dsimp only
    push_cast
    rw [h]
    ring
  · dsimp only
    rw [h]
    ring

theorem foldl_hosVisit_duration (dm : DistanceMatrix) (dd : DurationTable)
    (stops : List Shipment) :
    ∀ (l : List Store) (st : HosState) (loc : Store),
      st.onDutyTime = st.stopTime + st.travelTime + BREAK_DURATION * st.breaksTaken →
      (l.foldl (hosVisit dm dd stops) (st, loc)).1.onDutyTime
        = (l.foldl (hosVisit dm dd stops) (st, loc)).1.stopTime +
          (l.foldl (hosVisit dm dd stops) (st, loc)).1.travelTime +
          BREAK_DURATION * (l.foldl (hosVisit dm dd stops) (st, loc)).1.breaksTaken := by
  intro l
  induction l with
  | nil => intro st loc h; exact h
  | cons s rest ih =>
    intro st loc h
    simp only [List.foldl_cons]
    have hstep : (hosVisit dm dd stops (st, loc) s).1.onDutyTime
        = (hosVisit dm dd stops (st, loc) s).1.stopTime +
          (hosVisit dm dd stops (st, loc) s).1.travelTime +
          BREAK_DURATION * (hosVisit dm dd stops (st, loc) s).1.breaksTaken := by
      unfold hosVisit
      cases hdm : dm loc s
      · simp only [hdm]
        rw [h]
        ring
      · rename_i e
        simp only [hdm]
        have := hosAccrueLeg_duration_invariant st e h
        rw [this]
        ring
    exact ih (hosVisit dm dd stops (st, loc) s).1 (hosVisit dm dd stops (st, loc) s).2 hstep

/-- C4: the Duty-Cycle Simulator's final status follows exactly the claimed
precedence (on-duty checked after driving, so it overrides): it is
`ON_DUTY_VIOLATION` when accumulated on-duty time exceeds the 14-hour cap,
otherwise `DRIVING_VIOLATION` when accumulated travel time exceeds the
11-hour cap, otherwise `OK`; the accumulated on-duty time always equals stop
time plus travel time plus 30 minutes per inserted break; and accruing any
leg inserts one fixed 30-minute break before the leg exactly when on-duty
time plus the leg's duration would pass the next fresh 8-hour boundary
`(breaksTaken + 1) × 480`. -/
theorem C4_hos_break_and_status (stops : List Shipment) (wh : Store) (dm : DistanceMatrix)
    (dd : DurationTable) :
    ((calculateRouteMetricsWithHOS stops wh dm dd).hosStatus =
      (if (hosRun stops wh dm dd).onDutyTime > ON_DUTY_LIMIT then HosStatus.onDutyViolation
       else if (hosRun stops wh dm dd).travelTime > DRIVING_LIMIT then
         HosStatus.drivingViolation
       else HosStatus.ok)) ∧
    ((hosRun stops wh dm dd).onDutyTime = (hosRun stops wh dm dd).stopTime +
      (hosRun stops wh dm dd).travelTime +
      BREAK_DURATION * (hosRun stops wh dm dd).breaksTaken) ∧
    (∀ (s : HosState) (e : Edge), hosAccrueLeg s e =
      if s.onDutyTime + e.duration > ((s.breaksTaken : ℚ) + 1) * BREAK_THRESHOLD then
        { travelTime := s.travelTime + e.duration
          totalDistance := s.totalDistance + e.distance
          stopTime := s.stopTime
          onDutyTime := s.onDutyTime + BREAK_DURATION + e.duration
          breaksTaken := s.breaksTaken + 1 }
      else
        { travelTime := s.travelTime + e.duration
          totalDistance := s.totalDistance + e.distance
          stopTime := s.stopTime
          onDutyTime := s.onDutyTime + e.duration
          breaksTaken := s.breaksTaken }) := by
  refine ⟨?_, ?_, ?_⟩
  · show hosStatusOf (hosRun stops wh dm dd) = _
    unfold hosStatusOf
    by_cases hod : (hosRun stops wh dm dd).onDutyTime > ON_DUTY_LIMIT
    · rw [if_pos hod]
    · rw [if_neg hod]
  · have hinv := foldl_hosVisit_duration dm dd stops (dedupFirst (stops.map (·.store)))
      { travelTime := 0, totalDistance := 0, stopTime := loadingTime dd stops,
        onDutyTime := loadingTime dd stops, breaksTaken := 0 } wh
      (by dsimp only; push_cast; ring)
    unfold hosRun
    dsimp only
    cases hret : dm (List.foldl (hosVisit dm dd stops)
        ({ travelTime := 0, totalDistance := 0, stopTime := loadingTime dd stops,
           onDutyTime := loadingTime dd stops, breaksTaken := 0 }, wh)
        (dedupFirst (List.map (fun x => x.store) stops))).2 wh
    · exact hinv
    · rename_i e
      exact hosAccrueLeg_duration_invariant _ e hinv
  · intro s e
    unfold hosAccrueLeg
    split
    · rfl
    · rfl

theorem nnPickAux_dist (dm : DistanceMatrix) (loc : Store) :
    ∀ (l : List Store) (d : ℚ) (c : Store) (rem : List Store),
      nnPickAux dm loc l = some (d, c, rem) → (dm loc c).map (·.distance) = some d := by
  intro l
  induction l with
  | nil => intro d c rem h; cases h
  | cons s rest ih =>
    intro d c rem h
    simp only [nnPickAux] at h
    rcases hh : (dm loc s).map (·.distance) with _ | ds <;> rw [hh] at h <;>
      rcases ht : nnPickAux dm loc rest with _ | ⟨d', c', rem'⟩ <;> rw [ht] at h
    · cases h
    · simp only [Option.some.injEq, Prod.mk.injEq] at h
      obtain ⟨rfl, rfl, rfl⟩ := h
      exact ih _ _ _ ht
    · simp only [Option.some.injEq, Prod.mk.injEq] at h
      obtain ⟨rfl, rfl, rfl⟩ := h
      exact hh
    · have h' : (if d' < ds then some (d', c', s :: rem') else some (ds, s, rest))
          = some (d, c, rem) := h
      by_cases hlt : d' < ds
      · rw [if_pos hlt] at h'
        simp only [Option.some.injEq, Prod.mk.injEq] at h'
        obtain ⟨rfl, rfl, rfl⟩ := h'
        exact ih _ _ _ ht
      · rw [if_neg hlt] at h'
        simp only [Option.some.injEq, Prod.mk.injEq] at h'
        obtain ⟨rfl, rfl, rfl⟩ := h'
        exact hh

theorem nnPickAux_perm (dm : DistanceMatrix) (loc : Store) :
    ∀ (l : List Store) (d : ℚ) (c : Store) (rem : List Store),
      nnPickAux dm loc l = some (d, c, rem) → l.Perm (c :: rem) := by
  intro l
  induction l with
  | nil => intro d c rem h; cases h
  | cons s rest ih =>
    intro d c rem h
    simp only [nnPickAux] at h
    rcases hh : (dm loc s).map (·.distance) with _ | ds <;> rw [hh] at h <;>
      rcases ht : nnPickAux dm loc rest with _ | ⟨d', c', rem'⟩ <;> rw [ht] at h
    · cases h
    · simp only [Option.some.injEq, Prod.mk.injEq] at h
      obtain ⟨rfl, rfl, rfl⟩ := h
      exact ((ih _ _ _ ht).cons s).trans (List.Perm.swap _ s _)
    · simp only [Option.some.injEq, Prod.mk.injEq] at h
      obtain ⟨rfl, rfl, rfl⟩ := h
      exact List.Perm.refl _
    · have h' : (if d' < ds then some (d', c', s :: rem') else some (ds, s, rest))
          = some (d, c, rem) := h
      by_cases hlt : d' < ds
      · rw [if_pos hlt] at h'
        simp only [Option.some.injEq, Prod.mk.injEq] at h'
        obtain ⟨rfl, rfl, rfl⟩ := h'
        exact ((ih _ _ _ ht).cons s).trans (List.Perm.swap _ s _)
      · rw [if_neg hlt] at h'
        simp only [Option.some.injEq, Prod.mk.injEq] at h'
        obtain ⟨rfl, rfl, rfl⟩ := h'
        exact List.Perm.refl _

theorem nnPickAux_none (dm : DistanceMatrix) (loc : Store) :
    ∀ (l : List Store), nnPickAux dm loc l = none →
      ∀ x ∈ l, (dm loc x).map (·.distance) = none := by
  intro l
  induction l with
  | nil => intro _ x hx; cases hx
  | cons s rest ih =>
    intro h x hx
    simp only [nnPickAux] at h
    rcases hh : (dm loc s).map (·.distance) with _ | ds <;> rw [hh] at h <;>
      rcases ht : nnPickAux dm loc rest with _ | ⟨d', c', rem'⟩ <;> rw [ht] at h
    · rcases List.mem_cons.mp hx with rfl | hx'
      · exact hh
      · exact ih ht x hx'
    · cases h
    · cases h
    · have h' : (if d' < ds then some (d', c', s :: rem') else some (ds, s, rest))
          = none := h
      by_cases hlt : d' < ds
      · rw [if_pos hlt] at h'; cases h'
      · rw [if_neg hlt] at h'; cases h'

theorem nnPickAux_min (dm : DistanceMatrix) (loc : Store) :
    ∀ (l : List Store) (d : ℚ) (c : Store) (rem : List Store),
      nnPickAux dm loc l = some (d, c, rem) →
      ∀ x ∈ l, ∀ dx, (dm loc x).map (·.distance) = some dx → d ≤ dx := by
  intro l
  induction l with
  | nil => intro d c rem h; cases h
  | cons s rest ih =>
    intro d c rem h x hx dx hdx
    simp only [nnPickAux] at h
    rcases hh : (dm loc s).map (·.distance) with _ | ds <;> rw [hh] at h <;>
      rcases ht : nnPickAux dm loc rest with _ | ⟨d', c', rem'⟩ <;> rw [ht] at h
    · cases h
    · simp only [Option.some.injEq, Prod.mk.injEq] at h
      obtain ⟨rfl, rfl, rfl⟩ := h
      rcases List.mem_cons.mp hx with rfl | hx'
      · rw [hh] at hdx; cases hdx
      · exact ih _ _ _ ht x hx' dx hdx
    · simp only [Option.some.injEq, Prod.mk.injEq] at h
      obtain ⟨rfl, rfl, rfl⟩ := h
      rcases List.mem_cons.mp hx with rfl | hx'
      · rw [hh] at hdx
        cases hdx
        exact le_refl _
      · exfalso
        have := nnPickAux_none dm loc rest ht x hx'
        rw [this] at hdx
        cases hdx
    · have h' : (if d' < ds then some (d', c', s :: rem') else some (ds, s, rest))
          = some (d, c, rem) := h
      by_cases hlt : d' < ds
      · rw [if_pos hlt] at h'
        simp only [Option.some.injEq, Prod.mk.injEq] at h'
        obtain ⟨rfl, rfl, rfl⟩ := h'
        rcases List.mem_cons.mp hx with rfl | hx'
        · rw [hh] at hdx
          cases hdx
          exact le_of_lt hlt
        · exact ih _ _ _ ht x hx' dx hdx
      · rw [if_neg hlt] at h'
        simp only [Option.some.injEq, Prod.mk.injEq] at h'
        obtain ⟨rfl, rfl, rfl⟩ := h'
        rcases List.mem_cons.mp hx with rfl | hx'
        · rw [hh] at hdx
          cases hdx
          exact le_refl _
        · exact le_trans (not_lt.mp hlt) (ih _ _ _ ht x hx' dx hdx)

theorem nnPickAux_first_min (dm : DistanceMatrix) (loc c : Store) (L : List Store) (d : ℚ)
    (hc : (dm loc c).map (·.distance) = some d)
    (hmin : ∀ x ∈ L, ∀ dx, (dm loc x).map (·.distance) = some dx → d ≤ dx) :
    nnPickAux dm loc (c :: L) = some (d, c, L) := by
  simp only [nnPickAux]
  rw [hc]
  rcases ht : nnPickAux dm loc L with _ | ⟨d', c', rem'⟩
  · rfl
  · have hc' := nnPickAux_dist dm loc L d' c' rem' ht
    have hmem : c' ∈ L :=
      (nnPickAux_perm dm loc L d' c' rem' ht).mem_iff.mpr (List.mem_cons_self _ _)
    have hle : d ≤ d' := hmin c' hmem d' hc'
    show (if d' < d then some (d', c', c :: rem') else some (d, c, L)) = some (d, c, L)
    rw [if_neg (not_lt.mpr hle)]


theorem nnLoop_perm (dm : DistanceMatrix) :
    ∀ (n : Nat) (loc : Store) (l : List Store), l.length ≤ n →
      (nnLoop dm n loc l).Perm l := by
  intro n
  induction n with
  | zero =>
    intro loc l hl
    exact List.Perm.refl _
  | succ n ih =>
    intro loc l hl
    simp only [nnLoop]
    rcases hp : nnPickAux dm loc l with _ | ⟨d, c, rem⟩
    · exact List.Perm.refl _
    · have hperm := nnPickAux_perm dm loc l d c rem hp
      have hlen := nnPickAux_length dm loc l d c rem hp
      have hrem : rem.length ≤ n := by omega
      exact ((ih c rem hrem).cons c).trans hperm.symm

theorem nnLoop_idem (dm : DistanceMatrix) :
    ∀ (n : Nat) (loc : Store) (l : List Store), l.length ≤ n →
      nnLoop dm n loc (nnLoop dm n loc l) = nnLoop dm n loc l := by
  intro n
  induction n with
  | zero => intro loc l hl; rfl
  | succ n ih =>
    intro loc l hl
    rcases hp : nnPickAux dm loc l with _ | ⟨d, c, rem⟩
    · simp only [nnLoop, hp]
    · have houter : nnLoop dm (n + 1) loc l = c :: nnLoop dm n c rem := by
        simp only [nnLoop, hp]
      rw [houter]
      have hlen := nnPickAux_length dm loc l d c rem hp
      have hrem : rem.length ≤ n := by omega
      have hL2perm : (nnLoop dm n c rem).Perm rem := nnLoop_perm dm n c rem hrem
      have hdist := nnPickAux_dist dm loc l d c rem hp
      have hmin := nnPickAux_min dm loc l d c rem hp
      have hlperm := nnPickAux_perm dm loc l d c rem hp
      have hpick2 : nnPickAux dm loc (c :: nnLoop dm n c rem)
          = some (d, c, nnLoop dm n c rem) := by
        apply nnPickAux_first_min dm loc c _ d hdist
        intro x hx dx hdx
        have hxrem : x ∈ rem := hL2perm.mem_iff.mp hx
        have hxl : x ∈ l := hlperm.mem_iff.mpr (List.mem_cons_of_mem c hxrem)
        exact hmin x hxl dx hdx
      simp only [nnLoop, hpick2]
      rw [ih c rem hrem]

theorem runNearestNeighbor_perm (items : List Store) (startLocation : Store)
    (dm : DistanceMatrix) : (runNearestNeighbor items startLocation dm).Perm items := by
  unfold runNearestNeighbor
  split
  · exact List.Perm.refl _
  · exact nnLoop_perm dm items.length startLocation items (le_refl _)

theorem runNearestNeighbor_idem (items : List Store) (startLocation : Store)
    (dm : DistanceMatrix) :
    runNearestNeighbor (runNearestNeighbor items startLocation dm) startLocation dm
      = runNearestNeighbor items startLocation dm := by
  by_cases hlen : items.length < 2
  · have hinner : runNearestNeighbor items startLocation dm = items := by
      rw [runNearestNeighbor, if_pos hlen]
    rw [hinner, hinner]
  · have hout : runNearestNeighbor items startLocation dm
        = nnLoop dm items.length startLocation items := by
      rw [runNearestNeighbor, if_neg hlen]
    have hlen2 : (runNearestNeighbor items startLocation dm).length = items.length :=
      (runNearestNeighbor_perm items startLocation dm).length_eq
    rw [runNearestNeighbor, if_neg (by rw [hlen2]; exact hlen), hlen2, hout]
    exact nnLoop_idem dm items.length startLocation items (le_refl _)


theorem mem_dedupFirstAux {α : Type} [DecidableEq α] :
    ∀ (l seen : List α) (x : α), x ∈ dedupFirstAux seen l ↔ x ∈ l ∧ x ∉ seen := by
  intro l
  induction l with
  | nil => intro seen x; simp [dedupFirstAux]
  | cons a as ih =>
    intro seen x
    simp only [dedupFirstAux]
    by_cases ha : a ∈ seen
    · rw [if_pos ha, ih]
      constructor
      · rintro ⟨hx, hns⟩
        exact ⟨List.mem_cons_of_mem a hx, hns⟩
      · rintro ⟨hx, hns⟩
        rcases List.mem_cons.mp hx with rfl | hx'
        · exact absurd ha hns
        · exact ⟨hx', hns⟩
    · rw [if_neg ha]
      constructor
      · intro hx
        rcases List.mem_cons.mp hx with rfl | hx'
        · exact ⟨List.mem_cons_self x as, ha⟩
        · obtain ⟨h1, h2⟩ := (ih (a :: seen) x).mp hx'
          exact ⟨List.mem_cons_of_mem a h1, fun hs => h2 (List.mem_cons_of_mem a hs)⟩
      · rintro ⟨hx, hns⟩
        rcases List.mem_cons.mp hx with rfl | hx'
        · exact List.mem_cons_self x _
        · by_cases hxa : x = a
          · subst hxa
            exact List.mem_cons_self x _
          · refine List.mem_cons_of_mem a ((ih (a :: seen) x).mpr ⟨hx', fun hs => ?_⟩)
            rcases List.mem_cons.mp hs with h | h
            · exact hxa h
            · exact hns h

theorem mem_dedupFirst {α : Type} [DecidableEq α] (l : List α) (x : α) :
    x ∈ dedupFirst l ↔ x ∈ l := by
  rw [dedupFirst, mem_dedupFirstAux]
  simp

theorem dedupFirstAux_nodup {α : Type} [DecidableEq α] :
    ∀ (l seen : List α), (dedupFirstAux seen l).Nodup := by
  intro l
  induction l with
  | nil => intro seen; exact List.nodup_nil
  | cons a as ih =>
    intro seen
    simp only [dedupFirstAux]
    by_cases ha : a ∈ seen
    · rw [if_pos ha]; exact ih seen
    · rw [if_neg ha]
      refine List.Nodup.cons ?_ (ih (a :: seen))
      intro hmem
      exact ((mem_dedupFirstAux as (a :: seen) a).mp hmem).2 (List.mem_cons_self a seen)

theorem dedupFirst_nodup {α : Type} [DecidableEq α] (l : List α) : (dedupFirst l).Nodup :=
  dedupFirstAux_nodup l []


theorem store_of_mem_flatten (stops : List Shipment) (K : List Store) :
    ∀ s ∈ (K.map (fun k => stops.filter (fun s' => s'.store = k))).flatten, s.store ∈ K := by
  intro s hs
  rw [List.mem_flatten] at hs
  obtain ⟨seg, hseg, hsseg⟩ := hs
  rw [List.mem_map] at hseg
  obtain ⟨k, hk, rfl⟩ := hseg
  have hdec := (List.mem_filter.mp hsseg).2
  simp only [decide_eq_true_eq] at hdec
  rwa [hdec]

theorem flatten_filter_eq (stops : List Shipment) :
    ∀ (K : List Store), K.Nodup → ∀ st ∈ K,
      ((K.map (fun k => stops.filter (fun s => s.store = k))).flatten).filter
          (fun s => s.store = st)
        = stops.filter (fun s => s.store = st) := by
  intro K
  induction K with
  | nil => intro _ st hst; cases hst
  | cons k ks ih =>
    intro hnd st hst
    simp only [List.map_cons, List.flatten_cons, List.filter_append]
    have hknotks : k ∉ ks := (List.nodup_cons.mp hnd).1
    rcases List.mem_cons.mp hst with rfl | hst'
    · have h1 : (stops.filter (fun s => s.store = st)).filter (fun s => s.store = st)
          = stops.filter (fun s => s.store = st) := by
        rw [List.filter_filter]
        simp
      have h2 : ((ks.map (fun k => stops.filter (fun s => s.store = k))).flatten).filter
          (fun s => s.store = st) = [] := by
        rw [List.filter_eq_nil_iff]
        intro s hs
        have := store_of_mem_flatten stops ks s hs
        simp only [decide_eq_true_eq]
        intro hstore
        rw [hstore] at this
        exact hknotks this
      rw [h1, h2, List.append_nil]
    · have h1 : (stops.filter (fun s => s.store = k)).filter (fun s => s.store = st) = [] := by
        rw [List.filter_eq_nil_iff]
        intro s hs
        have hsk := (List.mem_filter.mp hs).2
        simp only [decide_eq_true_eq] at hsk
        simp only [decide_eq_true_eq]
        intro hstore
        rw [hstore] at hsk
        rw [hsk] at hst'
        exact hknotks hst'
      rw [h1, List.nil_append]
      exact ih (List.nodup_cons.mp hnd).2 st hst'

theorem dedupFirst_flatten_stores (stops : List Shipment) :
    ∀ (K : List Store), K.Nodup →
      (∀ k ∈ K, stops.filter (fun s => s.store = k) ≠ []) →
      dedupFirst
          (((K.map (fun k => stops.filter (fun s => s.store = k))).flatten).map (·.store))
        = K := by
  intro K
  induction K with
  | nil => intro _ _; rfl
  | cons k ks ih =>
    intro hnd hne
    simp only [List.map_cons, List.flatten_cons, List.map_append]
    have hknotks : k ∉ ks := (List.nodup_cons.mp hnd).1
    have hseg : ∀ x ∈ (stops.filter (fun s => s.store = k)).map (·.store), x = k := by
      intro x hx
      rw [List.mem_map] at hx
      obtain ⟨s, hs, rfl⟩ := hx
      have := (List.mem_filter.mp hs).2
      simpa using this
    have hrest : ∀ x ∈ ((ks.map (fun k => stops.filter (fun s => s.store = k))).flatten).map
        (·.store), x ≠ k := by
      intro x hx
      rw [List.mem_map] at hx
      obtain ⟨s, hs, rfl⟩ := hx
      have hmem := store_of_mem_flatten stops ks s hs
      intro hcon
      rw [hcon] at hmem
      exact hknotks hmem
    have hnonempty : (stops.filter (fun s => s.store = k)).map (·.store) ≠ [] := by
      intro hcon
      exact hne k (List.mem_cons_self k ks) (List.map_eq_nil_iff.mp hcon)
    rcases hM : (stops.filter (fun s => s.store = k)).map (·.store) with _ | ⟨y, t⟩
    · exact absurd hM hnonempty
    · have hyk : y = k := hseg y (by rw [hM]; exact List.mem_cons_self y t)
      have htk : ∀ x ∈ t, x = k := by
        intro x hx
        exact hseg x (by rw [hM]; exact List.mem_cons_of_mem y hx)
      rw [hM, hyk, List.cons_append, dedupFirst_cons]
      have hfil : ((t ++ ((ks.map (fun k => stops.filter (fun s => s.store = k))).flatten).map
          (·.store)).filter (fun x => x ≠ k))
          = ((ks.map (fun k => stops.filter (fun s => s.store = k))).flatten).map (·.store) := by
        rw [List.filter_append]
        have h1 : t.filter (fun x => x ≠ k) = [] := by
          rw [List.filter_eq_nil_iff]
          intro x hx
          simp [htk x hx]
        have h2 : ((((ks.map (fun k => stops.filter (fun s => s.store = k))).flatten).map
            (·.store)).filter (fun x => x ≠ k))
            = ((ks.map (fun k => stops.filter (fun s => s.store = k))).flatten).map (·.store) := by
          rw [List.filter_eq_self]
          intro x hx
          simpa using hrest x hx
        rw [h1, h2, List.nil_append]
      rw [hfil, ih (List.nodup_cons.mp hnd).2]
      intro k' hk'
      exact hne k' (List.mem_cons_of_mem k hk')





theorem advanced_short (l : List Shipment) (wh : Store) (dm : DistanceMatrix)
    (h : l.length ≤ 1) : advancedOptimizeStopOrder l wh dm = l := by
  unfold advancedOptimizeStopOrder
  rw [if_pos h]

theorem advanced_unfold (stops : List Shipment) (wh : Store) (dm : DistanceMatrix)
    (h : ¬ stops.length ≤ 1) :
    advancedOptimizeStopOrder stops wh dm =
      ((seqOrderOf stops wh dm).map (fun st => stops.filter (fun s => s.store = st))).flatten := by
  unfold advancedOptimizeStopOrder seqOrderOf nnColdOf nnAmbientOf
  rw [if_neg h]

theorem advancedOptimizeStopOrder_idem (stops : List Shipment) (wh : Store)
    (dm : DistanceMatrix) :
    advancedOptimizeStopOrder (advancedOptimizeStopOrder stops wh dm) wh dm
      = advancedOptimizeStopOrder stops wh dm := by
  by_cases h1 : stops.length ≤ 1
  · have hout : advancedOptimizeStopOrder stops wh dm = stops := advanced_short stops wh dm h1
    rw [hout, hout]
  · have hout := advanced_unfold stops wh dm h1
    by_cases h2 : (advancedOptimizeStopOrder stops wh dm).length ≤ 1
    · exact advanced_short _ wh dm h2
    · set out := advancedOptimizeStopOrder stops wh dm with hdefout
      set keys := dedupFirst (stops.map (·.store)) with hkeys
      set nnA := nnAmbientOf stops wh dm with hnnA
      set nnC := nnColdOf stops wh dm with hnnC
      have hpermA : nnA.Perm (keys.filter (fun st => !storeHasCold stops st)) :=
        runNearestNeighbor_perm _ wh dm
      have hpermC : nnC.Perm (keys.filter (fun st => storeHasCold stops st)) :=
        runNearestNeighbor_perm _ _ dm
      have hFOperm : (nnA ++ nnC).Perm keys := by
        refine (hpermA.append hpermC).trans ?_
        refine (List.perm_append_comm).trans ?_
        exact List.filter_append_perm _ keys
      have hFOnodup : (nnA ++ nnC).Nodup := hFOperm.nodup_iff.mpr (dedupFirst_nodup _)
      have hne : ∀ k ∈ nnA ++ nnC, stops.filter (fun s => s.store = k) ≠ [] := by
        intro k hk
        have hkkeys : k ∈ keys := hFOperm.mem_iff.mp hk
        have hkmap : k ∈ stops.map (·.store) := (mem_dedupFirst _ _).mp hkkeys
        rw [List.mem_map] at hkmap
        obtain ⟨s, hs, rfl⟩ := hkmap
        intro hnil
        have hmem : s ∈ stops.filter (fun x => x.store = s.store) :=
          List.mem_filter.mpr ⟨hs, by simp⟩
        rw [hnil] at hmem
        cases hmem
      have hFOfold : seqOrderOf stops wh dm = nnA ++ nnC := by
        unfold seqOrderOf
        rw [← hnnA, ← hnnC]
      have houtFO : out = ((nnA ++ nnC).map
          (fun st => stops.filter (fun s => s.store = st))).flatten := by
        rw [hout, hFOfold]
      have hkeys2 : dedupFirst (out.map (·.store)) = nnA ++ nnC := by
        rw [houtFO]
        exact dedupFirst_flatten_stores stops (nnA ++ nnC) hFOnodup hne
      have hcoldeq : ∀ st ∈ nnA ++ nnC, storeHasCold out st = storeHasCold stops st := by
        intro st hst
        unfold storeHasCold
        rw [houtFO, flatten_filter_eq stops (nnA ++ nnC) hFOnodup st hst]
      have hambmem : ∀ x ∈ nnA, storeHasCold stops x = false := by
        intro x hx
        have hmem := hpermA.mem_iff.mp hx
        have := (List.mem_filter.mp hmem).2
        simpa using this
      have hcoldmem : ∀ x ∈ nnC, storeHasCold stops x = true := by
        intro x hx
        have hmem := hpermC.mem_iff.mp hx
        exact (List.mem_filter.mp hmem).2
      have hamb2 : (nnA ++ nnC).filter (fun st => !storeHasCold out st) = nnA := by
        rw [List.filter_append]
        have e1 : nnA.filter (fun st => !storeHasCold out st) = nnA := by
          rw [List.filter_eq_self]
          intro x hx
          rw [hcoldeq x (List.mem_append_left _ hx), hambmem x hx]
          rfl
        have e2 : nnC.filter (fun st => !storeHasCold out st) = [] := by
          rw [List.filter_eq_nil_iff]
          intro x hx
          rw [hcoldeq x (List.mem_append_right _ hx), hcoldmem x hx]
          simp
        rw [e1, e2, List.append_nil]
      have hcold2 : (nnA ++ nnC).filter (fun st => storeHasCold out st) = nnC := by
        rw [List.filter_append]
        have e1 : nnA.filter (fun st => storeHasCold out st) = [] := by
          rw [List.filter_eq_nil_iff]
          intro x hx
          rw [hcoldeq x (List.mem_append_left _ hx), hambmem x hx]
          simp
        have e2 : nnC.filter (fun st => storeHasCold out st) = nnC := by
          rw [List.filter_eq_self]
          intro x hx
          rw [hcoldeq x (List.mem_append_right _ hx), hcoldmem x hx]
        rw [e1, e2, List.nil_append]
      have hsegs : ∀ st ∈ nnA ++ nnC,
          out.filter (fun s => s.store = st) = stops.filter (fun s => s.store = st) := by
        intro st hst
        rw [houtFO]
        exact flatten_filter_eq stops (nnA ++ nnC) hFOnodup st hst
      have hnnA2 : nnAmbientOf out wh dm = nnA := by
        unfold nnAmbientOf
        rw [hkeys2, hamb2, hnnA]
        unfold nnAmbientOf
        exact runNearestNeighbor_idem _ wh dm
      have hnnC2 : nnColdOf out wh dm = nnC := by
        unfold nnColdOf
        rw [hkeys2, hcold2, hnnA2, hnnC]
        unfold nnColdOf
        rw [← hnnA]
        exact runNearestNeighbor_idem _ _ dm
      rw [advanced_unfold out wh dm h2]
      rw [show seqOrderOf out wh dm = nnA ++ nnC from by rw [seqOrderOf, hnnA2, hnnC2]]
      rw [List.map_congr_left hsegs, ← houtFO]
/-- C8: the Stop Sequencer is deterministic (equal stop lists, depot and
distance oracle give equal orderings, with the nearest-neighbor scan picking
the first occurrence among equal minimal distances) and idempotent: applying
it to its own output returns the identical ordering. -/
theorem C8_sequencer_deterministic_idempotent (stops : List Shipment) (wh : Store)
    (dm : DistanceMatrix) :
    advancedOptimizeStopOrder (advancedOptimizeStopOrder stops wh dm) wh dm
        = advancedOptimizeStopOrder stops wh dm ∧
    (∀ (stops' : List Shipment) (wh' : Store) (dm' : DistanceMatrix),
        stops' = stops → wh' = wh → dm' = dm →
        advancedOptimizeStopOrder stops' wh' dm' = advancedOptimizeStopOrder stops wh dm) ∧
    (∀ (loc c : Store) (L : List Store) (d : ℚ),
        (dm loc c).map (·.distance) = some d →
        (∀ x ∈ L, ∀ dx, (dm loc x).map (·.distance) = some dx → d ≤ dx) →
        nnPickAux dm loc (c :: L) = some (d, c, L)) :=
  ⟨advancedOptimizeStopOrder_idem stops wh dm,
   fun _ _ _ h1 h2 h3 => by rw [h1, h2, h3],
   fun loc c L d hc hmin => nnPickAux_first_min dm loc c L d hc hmin⟩


theorem jsRound_mono {a b : ℚ} (h : a ≤ b) : jsRound a ≤ jsRound b := by
  show ⌊a + 1 / 2⌋ ≤ ⌊b + 1 / 2⌋
  exact Int.floor_le_floor (by linarith)

theorem hosLe_onDuty {s₁ s₂ : HosState} (h : HosLe s₁ s₂) : s₁.onDutyTime ≤ s₂.onDutyTime := by
  obtain ⟨-, hraw, hk⟩ := h
  unfold hosRaw at hraw
  have : (s₁.breaksTaken : ℚ) ≤ (s₂.breaksTaken : ℚ) := by exact_mod_cast hk
  unfold BREAK_DURATION at hraw
  linarith

theorem hosAccrueLeg_breaks (s : HosState) (e : Edge) :
    (hosAccrueLeg s e).breaksTaken =
      if s.onDutyTime + e.duration > ((s.breaksTaken : ℚ) + 1) * BREAK_THRESHOLD
      then s.breaksTaken + 1 else s.breaksTaken := by
  unfold hosAccrueLeg
  split
  · rfl
  · rfl

theorem hosAccrueLeg_raw (s : HosState) (e : Edge) :
    hosRaw (hosAccrueLeg s e) = hosRaw s + e.duration := by
  unfold hosRaw hosAccrueLeg
  split <;> dsimp only <;> push_cast <;> ring

theorem hosAccrueLeg_onDutyTime (s : HosState) (e : Edge) :
    (hosAccrueLeg s e).onDutyTime =
      hosRaw s + e.duration + BREAK_DURATION * (hosAccrueLeg s e).breaksTaken := by
  rw [show (hosAccrueLeg s e).onDutyTime
      = hosRaw (hosAccrueLeg s e) + BREAK_DURATION * (hosAccrueLeg s e).breaksTaken from by
    unfold hosRaw; ring]
  rw [hosAccrueLeg_raw]

/-- The key breaks-count comparison for accruing the same leg on two ordered
states. -/
theorem hosAccrueLeg_le {s₁ s₂ : HosState} (e : Edge)
    (h : HosLe s₁ s₂) : HosLe (hosAccrueLeg s₁ e) (hosAccrueLeg s₂ e) := by
  obtain ⟨ht, hraw, hk⟩ := h
  refine ⟨?_, ?_, ?_⟩
  · rw [hosAccrueLeg_travelTime, hosAccrueLeg_travelTime]
    linarith
  · rw [hosAccrueLeg_raw, hosAccrueLeg_raw]
    linarith
  · rw [hosAccrueLeg_breaks, hosAccrueLeg_breaks]
    have hcast : (s₁.breaksTaken : ℚ) ≤ (s₂.breaksTaken : ℚ) := by exact_mod_cast hk
    have htrig : ∀ (s : HosState),
        (s.onDutyTime + e.duration > ((s.breaksTaken : ℚ) + 1) * BREAK_THRESHOLD) ↔
        (hosRaw s + e.duration > 480 + 450 * (s.breaksTaken : ℚ)) := by
      intro s
      unfold hosRaw BREAK_THRESHOLD BREAK_DURATION
      constructor <;> intro hh <;> linarith
    by_cases h1 : s₁.onDutyTime + e.duration > ((s₁.breaksTaken : ℚ) + 1) * BREAK_THRESHOLD
    · by_cases h2 : s₂.onDutyTime + e.duration > ((s₂.breaksTaken : ℚ) + 1) * BREAK_THRESHOLD
      · rw [if_pos h1, if_pos h2]
        omega
      · rw [if_pos h1, if_neg h2]
        have hr1 := (htrig s₁).mp h1
        have hr2 : hosRaw s₂ + e.duration ≤ 480 + 450 * (s₂.breaksTaken : ℚ) := by
          by_contra hcon
          push_neg at hcon
          exact h2 ((htrig s₂).mpr hcon)
        have : (450 : ℚ) * (s₁.breaksTaken : ℚ) < 450 * (s₂.breaksTaken : ℚ) := by linarith
        have : (s₁.breaksTaken : ℚ) < (s₂.breaksTaken : ℚ) := by linarith
        have : s₁.breaksTaken < s₂.breaksTaken := by exact_mod_cast this
        omega
    · rw [if_neg h1]
      by_cases h2 : s₂.onDutyTime + e.duration > ((s₂.breaksTaken : ℚ) + 1) * BREAK_THRESHOLD
      · rw [if_pos h2]; omega
      · rw [if_neg h2]; exact hk

theorem addUnload_le {s₁ s₂ : HosState} {u₁ u₂ : ℚ} (hu : u₁ ≤ u₂) (h : HosLe s₁ s₂) :
    HosLe (addUnload s₁ u₁) (addUnload s₂ u₂) := by
  obtain ⟨ht, hraw, hk⟩ := h
  refine ⟨ht, ?_, hk⟩
  unfold hosRaw addUnload at *
  dsimp only at *
  linarith



theorem addUnload_travelTime (s : HosState) (u : ℚ) : (addUnload s u).travelTime = s.travelTime :=
  rfl

theorem addUnload_breaksTaken (s : HosState) (u : ℚ) :
    (addUnload s u).breaksTaken = s.breaksTaken := rfl

theorem addUnload_raw (s : HosState) (u : ℚ) : hosRaw (addUnload s u) = hosRaw s + u := by
  unfold hosRaw addUnload
  dsimp only
  ring

theorem hosAccrueLeg_breaks_le (s : HosState) (e : Edge) :
    s.breaksTaken ≤ (hosAccrueLeg s e).breaksTaken := by
  rw [hosAccrueLeg_breaks]
  split
  · omega
  · omega

theorem hosTrigger_iff (s : HosState) (d : ℚ) :
    (s.onDutyTime + d > ((s.breaksTaken : ℚ) + 1) * BREAK_THRESHOLD) ↔
      hosRaw s + d > 480 + 450 * (s.breaksTaken : ℚ) := by
  unfold hosRaw BREAK_THRESHOLD BREAK_DURATION
  constructor <;> intro hh <;> linarith

theorem dedupFirstAux_append_singleton {α : Type} [DecidableEq α] :
    ∀ (l seen : List α) (x : α),
      dedupFirstAux seen (l ++ [x]) =
        if x ∈ seen ∨ x ∈ l then dedupFirstAux seen l else dedupFirstAux seen l ++ [x] := by
  intro l
  induction l with
  | nil =>
    intro seen x
    by_cases hx : x ∈ seen <;> simp [dedupFirstAux, hx]
  | cons a as ih =>
    intro seen x
    simp only [List.cons_append, dedupFirstAux, List.append_eq]
    by_cases ha : a ∈ seen
    · rw [if_pos ha, if_pos ha, ih]
      by_cases hx : x ∈ seen ∨ x ∈ as
      · rw [if_pos hx, if_pos (by
          rcases hx with h | h
          · exact Or.inl h
          · exact Or.inr (List.mem_cons_of_mem a h))]
      · rw [if_neg hx, if_neg (by
          rintro (h | h)
          · exact hx (Or.inl h)
          · rcases List.mem_cons.mp h with rfl | h
            · exact hx (Or.inl ha)
            · exact hx (Or.inr h))]
    · rw [if_neg ha, if_neg ha, ih]
      have hc : (x ∈ a :: seen ∨ x ∈ as) ↔ (x ∈ seen ∨ x ∈ a :: as) := by
        simp only [List.mem_cons]
        tauto
      by_cases hx : x ∈ a :: seen ∨ x ∈ as
      · rw [if_pos hx, if_pos (hc.mp hx)]
      · rw [if_neg hx, if_neg (fun h => hx (hc.mpr h))]
        simp

theorem dedupFirst_append_mem {α : Type} [DecidableEq α] (l : List α) (x : α) (h : x ∈ l) :
    dedupFirst (l ++ [x]) = dedupFirst l := by
  unfold dedupFirst
  rw [dedupFirstAux_append_singleton, if_pos (Or.inr h)]

theorem dedupFirst_append_not_mem {α : Type} [DecidableEq α] (l : List α) (x : α)
    (h : x ∉ l) : dedupFirst (l ++ [x]) = dedupFirst l ++ [x] := by
  unfold dedupFirst
  rw [dedupFirstAux_append_singleton, if_neg]
  rintro (hc | hc)
  · exact absurd hc (List.not_mem_nil x)
  · exact h hc

theorem ddLookup_loading_nonneg (dd : DurationTable) (b : Shipment)
    (hrates : ∀ s p d, dd s p = some d → 0 ≤ d.loading ∧ 0 ≤ d.unloading) :
    ∀ d, ddLookup dd b = some d → 0 ≤ d.loading := by
  intro d h
  unfold ddLookup at h
  cases hp : b.productTypeId with
  | none => rw [hp] at h; exact absurd h (by simp)
  | some p => rw [hp] at h; exact (hrates _ _ _ h).1

theorem ddLookup_unloading_nonneg (dd : DurationTable) (b : Shipment)
    (hrates : ∀ s p d, dd s p = some d → 0 ≤ d.loading ∧ 0 ≤ d.unloading) :
    ∀ d, ddLookup dd b = some d → 0 ≤ d.unloading := by
  intro d h
  unfold ddLookup at h
  cases hp : b.productTypeId with
  | none => rw [hp] at h; exact absurd h (by simp)
  | some p => rw [hp] at h; exact (hrates _ _ _ h).2

theorem loadingTime_append_le (dd : DurationTable) (stops : List Shipment) (b : Shipment)
    (hrates : ∀ s p d, dd s p = some d → 0 ≤ d.loading ∧ 0 ≤ d.unloading)
    (hp : 0 ≤ b.pallets) :
    loadingTime dd stops ≤ loadingTime dd (stops ++ [b]) := by
  unfold loadingTime
  rw [List.foldl_append]
  simp only [List.foldl_cons, List.foldl_nil]
  cases hdd : ddLookup dd b with
  | none => exact le_refl _
  | some d =>
    dsimp only
    have hl : 0 ≤ d.loading := ddLookup_loading_nonneg dd b hrates d hdd
    by_cases hz : d.loading ≠ 0
    · rw [if_pos hz]
      have : 0 ≤ b.pallets / PALLETS_PER_FLS * d.loading := by
        apply mul_nonneg (div_nonneg hp (by unfold PALLETS_PER_FLS; norm_num)) hl
      linarith
    · rw [if_neg hz]

theorem unloadTimeAtStore_append_le (dd : DurationTable) (stops : List Shipment)
    (b : Shipment) (st : Store)
    (hrates : ∀ s p d, dd s p = some d → 0 ≤ d.loading ∧ 0 ≤ d.unloading)
    (hp : 0 ≤ b.pallets) :
    unloadTimeAtStore dd stops st ≤ unloadTimeAtStore dd (stops ++ [b]) st := by
  unfold unloadTimeAtStore
  rw [List.foldl_append]
  simp only [List.foldl_cons, List.foldl_nil]
  by_cases hb : b.store = st
  · rw [if_pos hb]
    cases hdd : ddLookup dd b with
    | none => linarith
    | some d =>
      dsimp only
      have hu : 0 ≤ d.unloading := ddLookup_unloading_nonneg dd b hrates d hdd
      by_cases hz : d.unloading ≠ 0
      · rw [if_pos hz]
        have : 0 ≤ b.pallets / PALLETS_PER_FLS * d.unloading := by
          apply mul_nonneg (div_nonneg hp (by unfold PALLETS_PER_FLS; norm_num)) hu
        linarith
      · rw [if_neg hz]
        linarith
  · rw [if_neg hb]

theorem unloadTimeAtStore_nonneg (dd : DurationTable) (st : Store) :
    ∀ (stops : List Shipment),
      (∀ s p d, dd s p = some d → 0 ≤ d.loading ∧ 0 ≤ d.unloading) →
      (∀ s ∈ stops, 0 ≤ s.pallets) →
      0 ≤ unloadTimeAtStore dd stops st := by
  have haux : ∀ (l : List Shipment) (acc : ℚ),
      (∀ s p d, dd s p = some d → 0 ≤ d.loading ∧ 0 ≤ d.unloading) →
      (∀ s ∈ l, 0 ≤ s.pallets) → 0 ≤ acc →
      0 ≤ l.foldl
        (fun acc s =>
          if s.store = st then
            acc +
              (match ddLookup dd s with
               | some d => if d.unloading ≠ 0 then s.pallets / PALLETS_PER_FLS * d.unloading
                           else 15
               | none => 15)
          else acc)
        acc := by
    intro l
    induction l with
    | nil => intro acc _ _ hacc; exact hacc
    | cons a as ih =>
      intro acc hrates hps hacc
      rw [List.foldl_cons]
      apply ih _ hrates (fun s hs => hps s (List.mem_cons_of_mem a hs))
      by_cases hb : a.store = st
      · rw [if_pos hb]
        have hpa : 0 ≤ a.pallets := hps a (List.mem_cons_self a as)
        cases hdd : ddLookup dd a with
        | none => linarith
        | some d =>
          dsimp only
          have hu : 0 ≤ d.unloading := ddLookup_unloading_nonneg dd a hrates d hdd
          by_cases hz : d.unloading ≠ 0
          · rw [if_pos hz]
            have : 0 ≤ a.pallets / PALLETS_PER_FLS * d.unloading := by
              apply mul_nonneg (div_nonneg hpa (by unfold PALLETS_PER_FLS; norm_num)) hu
            linarith
          · rw [if_neg hz]
            linarith
      · rw [if_neg hb]
        exact hacc
  intro stops hrates hps
  exact haux stops 0 hrates hps (le_refl 0)

theorem hosVisit_eq_some (dm : DistanceMatrix) (dd : DurationTable) (stops : List Shipment)
    (s : HosState) (loc st : Store) (e : Edge) (he : dm loc st = some e) :
    hosVisit dm dd stops (s, loc) st
      = (addUnload (hosAccrueLeg s e) (unloadTimeAtStore dd stops st), st) := by
  unfold hosVisit addUnload
  dsimp only
  rw [he]

theorem foldl_hosVisit_le (dm : DistanceMatrix) (dd : DurationTable)
    (stops₁ stops₂ : List Shipment)
    (hdm : ∀ a c, (dm a c).isSome = true)
    (hu : ∀ s, unloadTimeAtStore dd stops₁ s ≤ unloadTimeAtStore dd stops₂ s) :
    ∀ (l : List Store) (s₁ s₂ : HosState) (loc : Store), HosLe s₁ s₂ →
      HosLe (l.foldl (hosVisit dm dd stops₁) (s₁, loc)).1
            (l.foldl (hosVisit dm dd stops₂) (s₂, loc)).1 := by
  intro l
  induction l with
  | nil => intro s₁ s₂ loc h; exact h
  | cons a as ih =>
    intro s₁ s₂ loc h
    rw [List.foldl_cons, List.foldl_cons]
    obtain ⟨e, he⟩ := Option.isSome_iff_exists.mp (hdm loc a)
    rw [hosVisit_eq_some dm dd stops₁ s₁ loc a e he,
        hosVisit_eq_some dm dd stops₂ s₂ loc a e he]
    exact ih _ _ a (addUnload_le (hu a) (hosAccrueLeg_le e h))



theorem hosFinal_eq (dm : DistanceMatrix) (F : HosState × Store) (wh : Store) (e : Edge)
    (he : dm F.2 wh = some e) :
    (match dm F.2 wh with
     | some e => hosAccrueLeg F.1 e
     | none => F.1) = hosAccrueLeg F.1 e := by
  rw [he]

theorem hosRun_eq (o : List Shipment) (wh : Store) (dm : DistanceMatrix) (dd : DurationTable) :
    hosRun o wh dm dd =
      (match dm ((dedupFirst (o.map (·.store))).foldl (hosVisit dm dd o)
          (⟨0, 0, loadingTime dd o, loadingTime dd o, 0⟩, wh)).2 wh with
       | some e => hosAccrueLeg ((dedupFirst (o.map (·.store))).foldl (hosVisit dm dd o)
          (⟨0, 0, loadingTime dd o, loadingTime dd o, 0⟩, wh)).1 e
       | none => ((dedupFirst (o.map (·.store))).foldl (hosVisit dm dd o)
          (⟨0, 0, loadingTime dd o, loadingTime dd o, 0⟩, wh)).1) := rfl

theorem hosTail_le (s₁ s₂ : HosState) (e₀ e₁ e₂ : Edge) (u : ℚ)
    (hle : HosLe s₁ s₂) (hu : 0 ≤ u)
    (hd : e₀.duration ≤ e₁.duration + e₂.duration) :
    HosLe (hosAccrueLeg s₁ e₀) (hosAccrueLeg (addUnload (hosAccrueLeg s₂ e₁) u) e₂) := by
  obtain ⟨ht, hraw, hk⟩ := hle
  refine ⟨?_, ?_, ?_⟩
  · rw [hosAccrueLeg_travelTime, hosAccrueLeg_travelTime, addUnload_travelTime,
        hosAccrueLeg_travelTime]
    linarith
  · rw [hosAccrueLeg_raw, hosAccrueLeg_raw, addUnload_raw, hosAccrueLeg_raw]
    linarith
  · have hkm2 : s₂.breaksTaken ≤ (addUnload (hosAccrueLeg s₂ e₁) u).breaksTaken := by
      rw [addUnload_breaksTaken]
      exact hosAccrueLeg_breaks_le s₂ e₁
    have hkm3 : (addUnload (hosAccrueLeg s₂ e₁) u).breaksTaken ≤
        (hosAccrueLeg (addUnload (hosAccrueLeg s₂ e₁) u) e₂).breaksTaken :=
      hosAccrueLeg_breaks_le _ e₂
    by_cases t₀ : s₁.onDutyTime + e₀.duration > ((s₁.breaksTaken : ℚ) + 1) * BREAK_THRESHOLD
    · have hL : (hosAccrueLeg s₁ e₀).breaksTaken = s₁.breaksTaken + 1 := by
        rw [hosAccrueLeg_breaks, if_pos t₀]
      rw [hL]
      rcases Nat.lt_or_ge s₂.breaksTaken
          (hosAccrueLeg (addUnload (hosAccrueLeg s₂ e₁) u) e₂).breaksTaken with hlt | hge
      · omega
      · have heqm : (addUnload (hosAccrueLeg s₂ e₁) u).breaksTaken = s₂.breaksTaken := by
          omega
        have hnt : ¬ ((addUnload (hosAccrueLeg s₂ e₁) u).onDutyTime + e₂.duration >
            (((addUnload (hosAccrueLeg s₂ e₁) u).breaksTaken : ℚ) + 1) * BREAK_THRESHOLD) := by
          intro hcon
          have hbr := hosAccrueLeg_breaks (addUnload (hosAccrueLeg s₂ e₁) u) e₂
          rw [if_pos hcon] at hbr
          omega
        rw [hosTrigger_iff] at hnt t₀
        push_neg at hnt
        have hrm : hosRaw (addUnload (hosAccrueLeg s₂ e₁) u) = hosRaw s₂ + e₁.duration + u := by
          rw [addUnload_raw, hosAccrueLeg_raw]
        rw [hrm, heqm] at hnt
        have hcast : ((s₁.breaksTaken : ℚ)) < (s₂.breaksTaken : ℚ) := by linarith
        have hklt : s₁.breaksTaken < s₂.breaksTaken := by exact_mod_cast hcast
        omega
    · have hL : (hosAccrueLeg s₁ e₀).breaksTaken = s₁.breaksTaken := by
        rw [hosAccrueLeg_breaks, if_neg t₀]
      rw [hL]
      omega

theorem hosRun_le (stops : List Shipment) (b : Shipment) (wh : Store) (dm : DistanceMatrix)
    (dd : DurationTable)
    (hdm : ∀ a c, (dm a c).isSome = true)
    (htri : ∀ a c : Store, durOf dm a wh ≤ durOf dm a c + durOf dm c wh)
    (hrates : ∀ s p d, dd s p = some d → 0 ≤ d.loading ∧ 0 ≤ d.unloading)
    (hps : ∀ s ∈ stops ++ [b], 0 ≤ s.pallets) :
    HosLe (hosRun stops wh dm dd) (hosRun (stops ++ [b]) wh dm dd) := by
  have hpb : 0 ≤ b.pallets := hps b (by simp)
  have hld : loadingTime dd stops ≤ loadingTime dd (stops ++ [b]) :=
    loadingTime_append_le dd stops b hrates hpb
  have hu : ∀ s, unloadTimeAtStore dd stops s ≤ unloadTimeAtStore dd (stops ++ [b]) s :=
    fun s => unloadTimeAtStore_append_le dd stops b s hrates hpb
  have hinit : HosLe (⟨0, 0, loadingTime dd stops, loadingTime dd stops, 0⟩ : HosState)
      (⟨0, 0, loadingTime dd (stops ++ [b]), loadingTime dd (stops ++ [b]), 0⟩ : HosState) := by
    refine ⟨le_refl 0, ?_, le_refl 0⟩
    unfold hosRaw
    dsimp only
    push_cast
    linarith
  have hmap : (stops ++ [b]).map (·.store) = stops.map (·.store) ++ [b.store] := by
    simp
  rw [hosRun_eq stops wh dm dd, hosRun_eq (stops ++ [b]) wh dm dd, hmap]
  by_cases hb : b.store ∈ stops.map (·.store)
  · rw [dedupFirst_append_mem _ _ hb]
    have hfold := foldl_hosVisit_le dm dd stops (stops ++ [b]) hdm hu
      (dedupFirst (stops.map (·.store)))
      ⟨0, 0, loadingTime dd stops, loadingTime dd stops, 0⟩
      ⟨0, 0, loadingTime dd (stops ++ [b]), loadingTime dd (stops ++ [b]), 0⟩ wh hinit
    have h2a := (foldl_hosVisit_distance dm dd stops (dedupFirst (stops.map (·.store)))
      ⟨0, 0, loadingTime dd stops, loadingTime dd stops, 0⟩ wh).2
    have h2b := (foldl_hosVisit_distance dm dd (stops ++ [b])
      (dedupFirst (stops.map (·.store)))
      ⟨0, 0, loadingTime dd (stops ++ [b]), loadingTime dd (stops ++ [b]), 0⟩ wh).2
    obtain ⟨e, he⟩ := Option.isSome_iff_exists.mp
      (hdm ((dedupFirst (stops.map (·.store))).getLastD wh) wh)
    have heA : dm ((dedupFirst (stops.map (·.store))).foldl (hosVisit dm dd stops)
        (⟨0, 0, loadingTime dd stops, loadingTime dd stops, 0⟩, wh)).2 wh = some e := by
      rw [h2a]
      exact he
    have heB : dm ((dedupFirst (stops.map (·.store))).foldl (hosVisit dm dd (stops ++ [b]))
        (⟨0, 0, loadingTime dd (stops ++ [b]), loadingTime dd (stops ++ [b]), 0⟩, wh)).2 wh
        = some e := by
      rw [h2b]
      exact he
    rw [hosFinal_eq dm _ wh e heA, hosFinal_eq dm _ wh e heB]
    exact hosAccrueLeg_le e hfold
  · rw [dedupFirst_append_not_mem _ _ hb, List.foldl_append]
    have hfold := foldl_hosVisit_le dm dd stops (stops ++ [b]) hdm hu
      (dedupFirst (stops.map (·.store)))
      ⟨0, 0, loadingTime dd stops, loadingTime dd stops, 0⟩
      ⟨0, 0, loadingTime dd (stops ++ [b]), loadingTime dd (stops ++ [b]), 0⟩ wh hinit
    have h2a := (foldl_hosVisit_distance dm dd stops (dedupFirst (stops.map (·.store)))
      ⟨0, 0, loadingTime dd stops, loadingTime dd stops, 0⟩ wh).2
    have h2b := (foldl_hosVisit_distance dm dd (stops ++ [b])
      (dedupFirst (stops.map (·.store)))
      ⟨0, 0, loadingTime dd (stops ++ [b]), loadingTime dd (stops ++ [b]), 0⟩ wh).2
    obtain ⟨e₀, he₀⟩ := Option.isSome_iff_exists.mp
      (hdm ((dedupFirst (stops.map (·.store))).getLastD wh) wh)
    obtain ⟨e₁, he₁⟩ := Option.isSome_iff_exists.mp
      (hdm ((dedupFirst (stops.map (·.store))).getLastD wh) b.store)
    obtain ⟨e₂, he₂⟩ := Option.isSome_iff_exists.mp (hdm b.store wh)
    have heA : dm ((dedupFirst (stops.map (·.store))).foldl (hosVisit dm dd stops)
        (⟨0, 0, loadingTime dd stops, loadingTime dd stops, 0⟩, wh)).2 wh = some e₀ := by
      rw [h2a]
      exact he₀
    have hvisit : List.foldl (hosVisit dm dd (stops ++ [b]))
        ((dedupFirst (stops.map (·.store))).foldl (hosVisit dm dd (stops ++ [b]))
          (⟨0, 0, loadingTime dd (stops ++ [b]), loadingTime dd (stops ++ [b]), 0⟩, wh))
        [b.store]
        = (addUnload
            (hosAccrueLeg ((dedupFirst (stops.map (·.store))).foldl
              (hosVisit dm dd (stops ++ [b]))
              (⟨0, 0, loadingTime dd (stops ++ [b]), loadingTime dd (stops ++ [b]), 0⟩, wh)).1 e₁)
            (unloadTimeAtStore dd (stops ++ [b]) b.store), b.store) := by
      rw [List.foldl_cons, List.foldl_nil]
      have hpair : ((dedupFirst (stops.map (·.store))).foldl (hosVisit dm dd (stops ++ [b]))
          (⟨0, 0, loadingTime dd (stops ++ [b]), loadingTime dd (stops ++ [b]), 0⟩, wh))
          = (((dedupFirst (stops.map (·.store))).foldl (hosVisit dm dd (stops ++ [b]))
              (⟨0, 0, loadingTime dd (stops ++ [b]), loadingTime dd (stops ++ [b]), 0⟩, wh)).1,
             (dedupFirst (stops.map (·.store))).getLastD wh) := by
        rw [← h2b]
      rw [hpair]
      exact hosVisit_eq_some dm dd (stops ++ [b]) _ _ b.store e₁ he₁
    rw [hvisit, hosFinal_eq dm _ wh e₀ heA, hosFinal_eq dm _ wh e₂ he₂]
    have hub : 0 ≤ unloadTimeAtStore dd (stops ++ [b]) b.store :=
      unloadTimeAtStore_nonneg dd b.store (stops ++ [b]) hrates hps
    have hd0 : durOf dm ((dedupFirst (stops.map (·.store))).getLastD wh) wh = e₀.duration := by
      unfold durOf
      rw [he₀]
      rfl
    have hd1 : durOf dm ((dedupFirst (stops.map (·.store))).getLastD wh) b.store
        = e₁.duration := by
      unfold durOf
      rw [he₁]
      rfl
    have hd2 : durOf dm b.store wh = e₂.duration := by
      unfold durOf
      rw [he₂]
      rfl
    have htr := htri ((dedupFirst (stops.map (·.store))).getLastD wh) b.store
    rw [hd0, hd1, hd2] at htr
    exact hosTail_le _ _ e₀ e₁ e₂ _ hfold hub htr



/-- C7 counterexample: `exDmTri` violates the triangle inequality on durations
(depot to store 1 takes 50 minutes, store 1 back to the depot 100 minutes,
while the detour through store 2 totals 2 minutes), all four traversed legs
are present, and appending store 2's shipment to the one-stop route strictly
decreases both the Duty-Cycle Simulator's travel time and its total duration,
refuting the claim as stated. -/
theorem C7_counterexample :
    (calculateRouteMetricsWithHOS ([exShipA] ++ [exShipTri]) 100 exDmTri exDdEmpty).travelTime
        < (calculateRouteMetricsWithHOS [exShipA] 100 exDmTri exDdEmpty).travelTime ∧
    (calculateRouteMetricsWithHOS ([exShipA] ++ [exShipTri]) 100 exDmTri
        exDdEmpty).totalDuration
        < (calculateRouteMetricsWithHOS [exShipA] 100 exDmTri exDdEmpty).totalDuration ∧
    (exDmTri 100 1).isSome = true ∧ (exDmTri 1 2).isSome = true ∧
    (exDmTri 2 100).isSome = true ∧ (exDmTri 1 100).isSome = true := by
  with_unfolding_all decide

/-- C7 (amended): when the distance oracle is complete, its durations satisfy
the triangle inequality toward the warehouse, the duration-table rates are
nonnegative and all pallet counts are nonnegative, appending a stop to an
ordered sequence never decreases the Duty-Cycle Simulator's travel time or
total on-duty duration. -/
theorem C7_append_stop_monotone (stops : List Shipment) (b : Shipment) (wh : Store)
    (dm : DistanceMatrix) (dd : DurationTable)
    (hdm : ∀ a c, (dm a c).isSome = true)
    (htri : ∀ a c : Store, durOf dm a wh ≤ durOf dm a c + durOf dm c wh)
    (hrates : ∀ s p d, dd s p = some d → 0 ≤ d.loading ∧ 0 ≤ d.unloading)
    (hps : ∀ s ∈ stops ++ [b], 0 ≤ s.pallets) :
    (calculateRouteMetricsWithHOS stops wh dm dd).travelTime
        ≤ (calculateRouteMetricsWithHOS (stops ++ [b]) wh dm dd).travelTime ∧
    (calculateRouteMetricsWithHOS stops wh dm dd).totalDuration
        ≤ (calculateRouteMetricsWithHOS (stops ++ [b]) wh dm dd).totalDuration := by
  have h := hosRun_le stops b wh dm dd hdm htri hrates hps
  constructor
  · show jsRound (hosRun stops wh dm dd).travelTime
        ≤ jsRound (hosRun (stops ++ [b]) wh dm dd).travelTime
    exact jsRound_mono h.1
  · show jsRound (hosRun stops wh dm dd).onDutyTime
        ≤ jsRound (hosRun (stops ++ [b]) wh dm dd).onDutyTime
    exact jsRound_mono (hosLe_onDuty h)

/-- Witness for C7 at a concrete complete uniform matrix. -/
theorem C7_append_stop_monotone_witness :
    (∀ a c : Store, (exDmOne a c).isSome = true) ∧
    (∀ a c : Store, durOf exDmOne a 100 ≤ durOf exDmOne a c + durOf exDmOne c 100) ∧
    (∀ s p d, exDdEmpty s p = some d → 0 ≤ d.loading ∧ 0 ≤ d.unloading) ∧
    (∀ s ∈ [exShipA] ++ [exShipB], 0 ≤ s.pallets) ∧
    ((calculateRouteMetricsWithHOS [exShipA] 100 exDmOne exDdEmpty).travelTime
        ≤ (calculateRouteMetricsWithHOS ([exShipA] ++ [exShipB]) 100 exDmOne
            exDdEmpty).travelTime ∧
     (calculateRouteMetricsWithHOS [exShipA] 100 exDmOne exDdEmpty).totalDuration
        ≤ (calculateRouteMetricsWithHOS ([exShipA] ++ [exShipB]) 100 exDmOne
            exDdEmpty).totalDuration) := by
  have h1 : ∀ a c : Store, (exDmOne a c).isSome = true := fun _ _ => rfl
  have h2 : ∀ a c : Store, durOf exDmOne a 100 ≤ durOf exDmOne a c + durOf exDmOne c 100 := by
    intro a c
    show (1 : ℚ) ≤ 1 + 1
    norm_num
  have h3 : ∀ s p d, exDdEmpty s p = some d → 0 ≤ d.loading ∧ 0 ≤ d.unloading := by
    intro s p d h
    exact absurd h (by simp [exDdEmpty])
  have h4 : ∀ s ∈ [exShipA] ++ [exShipB], 0 ≤ s.pallets := by
    intro s hs
    simp only [List.cons_append, List.nil_append, List.mem_cons, List.not_mem_nil,
      or_false] at hs
    rcases hs with rfl | rfl
    · show (0 : ℚ) ≤ 9
      norm_num
    · show (0 : ℚ) ≤ 8
      norm_num
  exact ⟨h1, h2, h3, h4,
    C7_append_stop_monotone [exShipA] exShipB 100 exDmOne exDdEmpty h1 h2 h3 h4⟩

end LDPT
